import Mathlib

/-!
Shallow embedding of the corroboration and safe-mutation engine of the
claude-agents-skills repository: the multi-agent consensus analyzers
(agent-coordinator/consensus_analyzer.py and consensus_analyzer_v2.py),
the dual-validator arbitration (correction-validator/validation_consensus.py)
and the mutation engine (code-fixer/code_fixer_v3.py).

Conventions of the embedding:
* a file's content is a `List String` of its lines; the file system and the
  per-session backup directory are maps `String → Option (List String)`;
* the external syntax verifier (`verify_syntax`, a child-process invocation)
  is an explicit oracle parameter `Verifier`;
* Python line indexing (including negative indices) is modelled by `pyNorm`;
* Python `dict` / `defaultdict` grouping is modelled by first-occurrence key
  lists (`firstDedup`) with per-key `filter` buckets, which is exactly the
  observable content of an insertion-ordered dict of appended lists;
* Python floats (confidence values) are modelled as rationals;
* issue identity (Python `id()`) is modelled by the issue's position in the
  input list (`List.enum`).
-/

/-- Substring test on character lists: `pat` occurs somewhere inside the list.
Models the Python `in` operator on strings. -/
def containsSub (pat : List Char) : List Char → Bool
  | [] => pat.isEmpty
  | c :: t => pat.isPrefixOf (c :: t) || containsSub pat t

/-- Python `pat in hay` for strings. -/
def strContains (hay pat : String) : Bool := containsSub pat.data hay.data

/-- Python `str.lower()` on one character, exact on the Latin-1 repertoire:
the uppercase ranges A-Z (U+0041-U+005A) and À-Þ (U+00C0-U+00DE, the
multiplication sign U+00D7 excepted) shift down by 0x20 and every other
Latin-1 character is unchanged; code points above U+00FF are left as they
are (every issue-type string the analyzers emit stays within Latin-1). -/
def pyLowerChar (c : Char) : Char :=
  if (0x41 ≤ c.toNat ∧ c.toNat ≤ 0x5A) ∨
     (0xC0 ≤ c.toNat ∧ c.toNat ≤ 0xDE ∧ c.toNat ≠ 0xD7) then
    Char.ofNat (c.toNat + 0x20)
  else c

/-- Python `str.lower()`: per-character case folding via `pyLowerChar`. -/
def toLowerStr (s : String) : String := String.mk (s.data.map pyLowerChar)

/-- Insertion-order deduplication with an accumulator of already-seen keys:
keeps the first occurrence of every element. -/
def firstDedupAux (seen : List String) : List String → List String
  | [] => []
  | x :: xs => if x ∈ seen then firstDedupAux seen xs
               else x :: firstDedupAux (seen ++ [x]) xs

/-- The key list of an insertion-ordered Python dict built by appending:
the input list with later duplicates removed. -/
def firstDedup (l : List String) : List String := firstDedupAux [] l

/-- Normalize a Python list index of a list of length `len`: `some i`
for a valid (possibly negative) index, `none` when indexing would raise
`IndexError`. -/
def pyNorm (len : Nat) (i : Int) : Option Nat :=
  if 0 ≤ i then (if i < (len : Int) then some i.toNat else none)
  else (if -(len : Int) ≤ i then some ((len : Int) + i).toNat else none)

/-- Python `l[i]` (with negative-index support); `none` models `IndexError`. -/
def pyGet {α : Type} (l : List α) (i : Int) : Option α :=
  match pyNorm l.length i with
  | some n => l.get? n
  | none => none

/-- Python `l[i] = a`; out-of-range indices are never reached by the code
modelled here (every store is guarded by a successful read). -/
def pySet {α : Type} (l : List α) (i : Int) (a : α) : List α :=
  match pyNorm l.length i with
  | some n => l.set n a
  | none => l

/-- Python `del l[i]`; out-of-range indices are never reached by the code
modelled here (every delete is guarded by a successful read). -/
def pyDel {α : Type} (l : List α) (i : Int) : List α :=
  match pyNorm l.length i with
  | some n => l.eraseIdx n
  | none => l

/-- Python regex `\s` on the character classes occurring in the analyzers'
inputs. -/
def isPySpace (c : Char) : Bool :=
  c = ' ' || c = '\t' || c = '\n' || c = '\r' || c = '\x0b' || c = '\x0c'

/-- Python `"True"` / `"False"` rendering of a bool inside an f-string. -/
def pyBoolStr (b : Bool) : String := if b then "True" else "False"

/-! ## Issue model (consensus_analyzer.py and consensus_analyzer_v2.py) -/

/-- `Issue` dataclass: a single analyzer's claim about a problem
(identical in consensus_analyzer.py and consensus_analyzer_v2.py). -/
structure Issue where
  agent : String
  file_path : String
  line_number : Int
  severity : String
  issue_type : String
  description : String
  solution : String
  old_code : String := ""
  new_code : String := ""
  confidence : ℚ := 0
  auto_fixable : Bool := false
deriving DecidableEq, Repr

/-- `ConsensusIssue` dataclass: an issue validated by multi-agent consensus. -/
structure ConsensusIssue where
  file_path : String
  line_number : Int
  issue_type : String
  description : String
  solution : String
  severity : String
  old_code : String := ""
  new_code : String := ""
  confidence : ℚ := 0
  auto_fixable : Bool := false
  agreed_by : List String := []
  consensus_level : Nat := 0
  source_issues : List Issue := []
deriving DecidableEq, Repr

/-- `ConsensusAnalyzer.normalize_issue_type`: maps an analyzer's free-text
issue type into the canonical taxonomy by case-insensitive substring
matching, falling back to the lower-cased input. -/
def normalize_issue_type (issue_type : String) : String :=
  let issue_type_lower := toLowerStr issue_type
  if strContains issue_type_lower "emoji" then "emoji"
  else if strContains issue_type_lower "console" then "console_log"
  else if strContains issue_type_lower "import" then "unused_import"
  else if strContains issue_type_lower "comment" then "commented_code"
  else if strContains issue_type_lower "button" then "button_issue"
  else if strContains issue_type_lower "prop" then "props_issue"
  else if strContains issue_type_lower "consistency" ||
          strContains issue_type_lower "cohérence" then "consistency"
  else issue_type_lower

/-- `ConsensusAnalyzer.issues_match`: same file, lines within the tolerance,
same normalized type. -/
def issues_match (tolerance : Int) (issue1 issue2 : Issue) : Bool :=
  if issue1.file_path ≠ issue2.file_path then false
  else if ((issue1.line_number - issue2.line_number).natAbs : Int) > tolerance then false
  else normalize_issue_type issue1.issue_type = normalize_issue_type issue2.issue_type

/-- Python `max(strings, key=len)`: first string of maximal length. -/
def maxByLen : List String → String
  | [] => ""
  | x :: xs => xs.foldl (fun best y => if y.length > best.length then y else best) x

/-- `severity_order.get(s, 0)` from `create_consensus_issue`. -/
def severityRank (s : String) : Nat :=
  if s = "critical" then 3 else if s = "important" then 2
  else if s = "minor" then 1 else 0

/-- Python `max(severities, key=lambda s: severity_order.get(s, 0))`:
first severity of maximal rank. -/
def maxBySeverity : List String → String
  | [] => ""
  | x :: xs => xs.foldl (fun best y =>
      if severityRank y > severityRank best then y else best) x

/-- Python `next((s for s in l if s), "")`: first non-empty string. -/
def firstNonEmptyStr : List String → String
  | [] => ""
  | x :: xs => if x ≠ "" then x else firstNonEmptyStr xs

/-- `ConsensusAnalyzer.create_consensus_issue`: merge the matching issues
into one consensus record (the `[]` case is unreachable from
`find_consensus`, which always passes a non-empty list). -/
def create_consensus_issue : List Issue → ConsensusIssue
  | [] => {
      file_path := "", line_number := 0, issue_type := "",
      description := "", solution := "", severity := "" }
  | primary :: rest =>
    let matching := primary :: rest
    { file_path := primary.file_path
      line_number := primary.line_number
      issue_type := normalize_issue_type primary.issue_type
      description := maxByLen (matching.map Issue.description)
      solution := maxByLen (matching.map Issue.solution)
      severity := maxBySeverity (matching.map Issue.severity)
      old_code := firstNonEmptyStr (matching.map Issue.old_code)
      new_code := firstNonEmptyStr (matching.map Issue.new_code)
      confidence := (matching.map Issue.confidence).sum / (matching.length : ℚ)
      auto_fixable := matching.any Issue.auto_fixable
      agreed_by := matching.map Issue.agent
      consensus_level := matching.length
      source_issues := matching }

/-- The `issues_by_file` grouping of `find_consensus`: keys in first-occurrence
order, each bucket the subsequence of (indexed) issues with that file path. -/
def issuesByFile (indexed : List (Nat × Issue)) : List (String × List (Nat × Issue)) :=
  (firstDedup (indexed.map (fun ix => ix.2.file_path))).map
    (fun f => (f, indexed.filter (fun ix => ix.2.file_path == f)))

/-- State threaded through the greedy claiming loops of `find_consensus`:
the `processed` id set and the consensus groups found so far. -/
structure ConsensusState where
  processed : List Nat
  groups : List (List (Nat × Issue))
deriving Repr

/-- The inner `for j, issue2 in enumerate(file_issues)` loop of
`find_consensus`: collect every not-yet-claimed issue from a distinct agent
that matches the seed pairwise.  Returns the matching issues and the
matching agents, in collection order. -/
def collectMatching (tolerance : Int) (processed : List Nat)
    (seed : Nat × Issue) (file_issues : List (Nat × Issue)) :
    List (Nat × Issue) × List String :=
  file_issues.foldl (fun acc jx =>
    if jx.1 = seed.1 ∨ jx.1 ∈ processed then acc
    else if issues_match tolerance seed.2 jx.2 ∧ jx.2.agent ∉ acc.2 then
      (acc.1 ++ [jx], acc.2 ++ [jx.2.agent])
    else acc)
    ([seed], [seed.2.agent])

/-- The two nested claiming loops of `find_consensus`: for each file and each
unprocessed seed issue, collect the matching group and keep it when it spans
at least `min_agents` distinct agents, marking its members processed. -/
def consensusFold (tolerance : Int) (min_agents : Int)
    (byFile : List (String × List (Nat × Issue))) : ConsensusState :=
  byFile.foldl (fun st fg =>
    fg.2.foldl (fun st ix =>
      if ix.1 ∈ st.processed then st
      else
        let mg := collectMatching tolerance st.processed ix fg.2
        if (mg.2.length : Int) ≥ min_agents then
          { processed := st.processed ++ mg.1.map Prod.fst,
            groups := st.groups ++ [mg.1] }
        else st) st)
    ⟨[], []⟩

/-- `ConsensusAnalyzer.find_consensus`: returns the consensus issues and the
rejected (unclaimed) issues. -/
def find_consensus (tolerance : Int) (all_issues : List Issue)
    (min_agents : Int) : List ConsensusIssue × List Issue :=
  let indexed := all_issues.enum
  let st := consensusFold tolerance min_agents (issuesByFile indexed)
  (st.groups.map (fun g => create_consensus_issue (g.map Prod.snd)),
   (indexed.filter (fun ix => ix.1 ∉ st.processed)).map Prod.snd)

/-! ## File-level consensus (consensus_analyzer_v2.py) -/

/-- `FileConsensus` dataclass of consensus_analyzer_v2.py. -/
structure FileConsensus where
  file_path : String
  agents_count : Nat
  agents : List String
  total_issues : Nat
  auto_fixable_issues : List Issue
  all_issues : List Issue
deriving DecidableEq, Repr

/-- `ConsensusResultV2` dataclass of consensus_analyzer_v2.py. -/
structure ConsensusResultV2 where
  validated_files : List FileConsensus
  rejected_files : List String
  validated_issues : List Issue
  rejected_issues : List Issue
deriving DecidableEq, Repr

/-- The file keys of the `issues_by_file` nested defaultdict of
`ConsensusAnalyzerV2.find_consensus`, in insertion order. -/
def fileKeysV2 (all_issues : List Issue) : List String :=
  firstDedup (all_issues.map Issue.file_path)

/-- The agent keys of one file's inner defaultdict, in insertion order. -/
def agentKeysV2 (all_issues : List Issue) (f : String) : List String :=
  firstDedup ((all_issues.filter (fun i => i.file_path == f)).map Issue.agent)

/-- `all_file_issues` of one file: the issues of that file in the
agent-bucket iteration order of the nested defaultdict. -/
def allFileIssuesV2 (all_issues : List Issue) (f : String) : List Issue :=
  (agentKeysV2 all_issues f).flatMap
    (fun a => all_issues.filter (fun i => i.file_path == f && i.agent == a))

/-- `auto_fixable_file_issues` of one file. -/
def autoFixableFileIssuesV2 (all_issues : List Issue) (f : String) : List Issue :=
  (allFileIssuesV2 all_issues f).filter Issue.auto_fixable

/-- `ConsensusAnalyzerV2.find_consensus`: per-file decision; a file spanning
at least `min_agents` distinct agents promotes exactly its auto-fixable
issues to the validated list, any other file sends its auto-fixable issues
to the rejected list.  `consensusV2Step` is the body of the
`for file_path, agents_issues in issues_by_file.items()` loop. -/
def consensusV2Step (min_agents : Int) (all_issues : List Issue)
    (r : ConsensusResultV2) (f : String) : ConsensusResultV2 :=
  let agents := agentKeysV2 all_issues f
  let all_file_issues := allFileIssuesV2 all_issues f
  let auto_fixable := autoFixableFileIssuesV2 all_issues f
  if (agents.length : Int) ≥ min_agents then
    { r with
      validated_files := r.validated_files ++
        [{ file_path := f, agents_count := agents.length, agents := agents,
           total_issues := all_file_issues.length,
           auto_fixable_issues := auto_fixable,
           all_issues := all_file_issues }],
      validated_issues := r.validated_issues ++ auto_fixable }
  else
    { r with
      rejected_files := r.rejected_files ++ [f],
      rejected_issues := r.rejected_issues ++ auto_fixable }

/-- `ConsensusAnalyzerV2.find_consensus`: fold the per-file decision over
every reported file. -/
def find_consensus_v2 (min_agents : Int) (all_issues : List Issue) :
    ConsensusResultV2 :=
  (fileKeysV2 all_issues).foldl (consensusV2Step min_agents all_issues)
    ⟨[], [], [], []⟩

/-! ## Dual-validator arbitration (validation_consensus.py) -/

/-- One entry of a validator report (`validations` array element). -/
structure Validation where
  file_path : String
  line_number : Int
  issue_type : String
  approved : Bool
  validation_confidence : ℚ
  original_description : String
  proposed_solution : String
  source_agent : String
deriving DecidableEq, Repr

/-- The `(file_path, line_number, issue_type)` join key of a validation. -/
def valKey (v : Validation) : String × Int × String :=
  (v.file_path, v.line_number, v.issue_type)

/-- `ConsensusValidation` dataclass of validation_consensus.py. -/
structure ConsensusValidation where
  file_path : String
  line_number : Int
  issue_type : String
  description : String
  solution : String
  validator1_approved : Bool
  validator2_approved : Bool
  validator1_confidence : ℚ
  validator2_confidence : ℚ
  average_confidence : ℚ
  source_agent : String
  consensus_approved : Bool
deriving DecidableEq, Repr

/-- An element of `approved_corrections` (the dict literal built in
`compare_validations`). -/
structure ApprovedCorrection where
  file : String
  line : Int
  type : String
  description : String
  solution : String
  confidence : ℚ
  auto_fixable : Bool
  agent : String
deriving DecidableEq, Repr

/-- An element of `rejected_corrections`. -/
structure RejectedCorrection where
  file : String
  line : Int
  type : String
  reason : String
deriving DecidableEq, Repr

/-- The result lists accumulated by `compare_validations`. -/
structure ValidationConsensusResult where
  consensus_validations : List ConsensusValidation
  approved_corrections : List ApprovedCorrection
  rejected_corrections : List RejectedCorrection
deriving DecidableEq, Repr

/-- `ValidationConsensus.find_matching_validation`: first entry of the second
validator's report with the same `(file_path, line_number, issue_type)` key. -/
def find_matching_validation (val1 : Validation) (validations2 : List Validation) :
    Option Validation :=
  validations2.find? (fun val2 =>
    val1.file_path == val2.file_path &&
    val1.line_number == val2.line_number &&
    val1.issue_type == val2.issue_type)

/-- The `ConsensusValidation` record built by `compare_validations` for one
matched pair of validations. -/
def consensusEntry (val1 val2 : Validation) : ConsensusValidation :=
  { file_path := val1.file_path
    line_number := val1.line_number
    issue_type := val1.issue_type
    description := val1.original_description
    solution := val1.proposed_solution
    validator1_approved := val1.approved
    validator2_approved := val2.approved
    validator1_confidence := val1.validation_confidence
    validator2_confidence := val2.validation_confidence
    average_confidence := (val1.validation_confidence + val2.validation_confidence) / 2
    source_agent := val1.source_agent
    consensus_approved := val1.approved && val2.approved }

/-- The `approved_corrections` dict literal built by `compare_validations`
for a pair approved by both validators. -/
def approvedEntry (val1 val2 : Validation) : ApprovedCorrection :=
  { file := val1.file_path, line := val1.line_number,
    type := val1.issue_type, description := val1.original_description,
    solution := val1.proposed_solution,
    confidence := (val1.validation_confidence + val2.validation_confidence) / 2,
    auto_fixable := true, agent := val1.source_agent }

/-- The `rejected_corrections` dict literal built by `compare_validations`
for a disagreeing pair. -/
def rejectedEntry (val1 val2 : Validation) : RejectedCorrection :=
  { file := val1.file_path, line := val1.line_number,
    type := val1.issue_type,
    reason := "Désaccord (V1: " ++ pyBoolStr val1.approved ++
              ", V2: " ++ pyBoolStr val2.approved ++ ")" }

/-- One iteration of the `for val1 in validations1` loop of
`compare_validations`. -/
def compareValidationsStep (validations2 : List Validation)
    (r : ValidationConsensusResult) (val1 : Validation) :
    ValidationConsensusResult :=
  match find_matching_validation val1 validations2 with
  | none => r
  | some val2 =>
    let r := { r with consensus_validations :=
                 r.consensus_validations ++ [consensusEntry val1 val2] }
    if val1.approved && val2.approved then
      { r with approved_corrections :=
          r.approved_corrections ++ [approvedEntry val1 val2] }
    else if !val1.approved && !val2.approved then r
    else
      { r with rejected_corrections :=
          r.rejected_corrections ++ [rejectedEntry val1 val2] }

/-- `ValidationConsensus.compare_validations`: compare every validation of the
first validator with the matching one of the second validator. -/
def compare_validations (validations1 validations2 : List Validation) :
    ValidationConsensusResult :=
  validations1.foldl (compareValidationsStep validations2) ⟨[], [], []⟩

/-! ## Mutation engine (code_fixer_v3.py) -/

namespace CodeFixerV3

/-- `Fix` dataclass of code_fixer_v3.py: one correction to apply. -/
structure Fix where
  agent : String
  file_path : String
  line_number : Int
  fix_type : String
  description : String
  solution : String
  old_code : String
  new_code : String
  confidence : ℚ
  applied : Bool := false
  success : Bool := false
  error : String := ""
deriving DecidableEq, Repr

/-- The project file system (and, with the same type, the session backup
directory `2-FIXES/backup`): a map from relative paths to file contents. -/
def FS : Type := String → Option (List String)

/-- Write one file of the file system. -/
def updateFS (fs : FS) (p : String) (c : List String) : FS :=
  fun q => if q = p then some c else fs q

/-- Python `str(FileNotFoundError)` text for a missing file. -/
def fileNotFoundError (path : String) : String :=
  "[Errno 2] No such file or directory: \x27" ++ path ++ "\x27"

/-- `CodeFixerV3.backup_file`: copy the current bytes of the file into the
session backup, overwriting any previous backup of the same path; a missing
file is silently skipped. -/
def backup_file (fs : FS) (bk : FS) (path : String) : FS :=
  match fs path with
  | none => bk
  | some c => updateFS bk path c

/-- `CodeFixerV3.rollback_file`: restore the file from the session backup;
`false` when no backup exists. -/
def rollback_file (fs : FS) (bk : FS) (path : String) : FS × Bool :=
  match bk path with
  | none => (fs, false)
  | some c => (updateFS fs path c, true)

/-- The emoji codepoint class of the `emoji_pattern` regex of
`apply_emoji_removal`. -/
def isEmojiChar (c : Char) : Bool :=
  (0x1F600 ≤ c.toNat && c.toNat ≤ 0x1F64F) ||
  (0x1F300 ≤ c.toNat && c.toNat ≤ 0x1F5FF) ||
  (0x1F680 ≤ c.toNat && c.toNat ≤ 0x1F6FF) ||
  (0x1F700 ≤ c.toNat && c.toNat ≤ 0x1F77F) ||
  (0x1F780 ≤ c.toNat && c.toNat ≤ 0x1F7FF) ||
  (0x1F800 ≤ c.toNat && c.toNat ≤ 0x1F8FF) ||
  (0x1F900 ≤ c.toNat && c.toNat ≤ 0x1F9FF) ||
  (0x1FA00 ≤ c.toNat && c.toNat ≤ 0x1FA6F) ||
  (0x1FA70 ≤ c.toNat && c.toNat ≤ 0x1FAFF) ||
  (0x2700 ≤ c.toNat && c.toNat ≤ 0x27BF) ||
  (0x24C2 ≤ c.toNat && c.toNat ≤ 0x1F251)

/-- The regex substitution `re.sub(r'  +', ' ', line)`: every run of two or
more spaces collapses to a single space. -/
def collapseSpaces : List Char → List Char
  | [] => []
  | [c] => [c]
  | c1 :: c2 :: rest =>
    if c1 = ' ' ∧ c2 = ' ' then collapseSpaces (c2 :: rest)
    else c1 :: collapseSpaces (c2 :: rest)

/-- The full line transformation of `apply_emoji_removal`: strip the emoji
codepoint class, then collapse multiple spaces. -/
def emojiSubstituted (s : String) : String :=
  String.mk (collapseSpaces (s.data.filter (fun c => !isEmojiChar c)))

/-- `apply_emoji_removal`: remove emojis from the target line; `false` when
the line is out of bounds or the substitution changes nothing. -/
def apply_emoji_removal (fs : FS) (file_path : String) (fix : Fix) :
    FS × Fix × Bool :=
  match fs file_path with
  | none => (fs, { fix with error := fileNotFoundError file_path }, false)
  | some lines =>
    if fix.line_number > (lines.length : Int) then
      (fs, { fix with error := "Ligne " ++ toString fix.line_number ++ " hors limites" }, false)
    else
      match pyGet lines (fix.line_number - 1) with
      | none => (fs, { fix with error := "list index out of range" }, false)
      | some original_line =>
        let new_line := emojiSubstituted original_line
        if original_line ≠ new_line then
          (updateFS fs file_path (pySet lines (fix.line_number - 1) new_line),
           { fix with old_code := original_line.trim, new_code := new_line.trim },
           true)
        else (fs, fix, false)

/-- The precondition re-checked by `apply_console_log_removal`: the line
contains a console call. -/
def hasConsoleCall (line : String) : Bool :=
  strContains line "console.log" || strContains line "console.error" ||
  strContains line "console.warn"

/-- `apply_console_log_removal`: delete the target line when it contains a
console call; `false` (with `Fix.error` untouched) when it does not. -/
def apply_console_log_removal (fs : FS) (file_path : String) (fix : Fix) :
    FS × Fix × Bool :=
  match fs file_path with
  | none => (fs, { fix with error := fileNotFoundError file_path }, false)
  | some lines =>
    if fix.line_number > (lines.length : Int) then
      (fs, { fix with error := "Ligne " ++ toString fix.line_number ++ " hors limites" }, false)
    else
      match pyGet lines (fix.line_number - 1) with
      | none => (fs, { fix with error := "list index out of range" }, false)
      | some original_line =>
        if hasConsoleCall original_line then
          (updateFS fs file_path (pyDel lines (fix.line_number - 1)),
           { fix with old_code := original_line.trim, new_code := "[ligne supprimée]" },
           true)
        else (fs, fix, false)

/-- Match `Import\s+'([^']+)'\s+non utilisé` at the head of the character
list, returning the captured import name. -/
def matchImportNameAt (s : List Char) : Option (List Char) :=
  if "Import".data.isPrefixOf s then
    match s.drop 6 with
    | [] => none
    | c :: _ =>
      if isPySpace c then
        match (s.drop 6).dropWhile isPySpace with
        | q :: r3 =>
          if q = '\x27' then
            let name := r3.takeWhile (fun ch => ch ≠ '\x27')
            if name.isEmpty then none
            else
              match r3.drop name.length with
              | q2 :: r4 =>
                if q2 = '\x27' then
                  match r4 with
                  | d :: _ =>
                    if isPySpace d then
                      if "non utilisé".data.isPrefixOf (r4.dropWhile isPySpace)
                      then some name else none
                    else none
                  | [] => none
                else none
              | [] => none
          else none
        | [] => none
      else none
  else none

/-- `re.search` of the import-name pattern: leftmost match wins. -/
def searchImportName : List Char → Option (List Char)
  | [] => none
  | c :: t =>
    match matchImportNameAt (c :: t) with
    | some name => some name
    | none => searchImportName t

/-- Consume the `\s*,?` tail of the `,?\s*NAME\s*,?` pattern. -/
def consumeSpacesComma (t : List Char) : List Char :=
  match t.dropWhile isPySpace with
  | ',' :: r => r
  | r => r

/-- Try `\s*NAME\s*,?` at `t`, with the greedy `\s*` preference of the regex
engine: `j` whitespace characters first, then fewer. -/
def tryNameFrom (name t : List Char) : Nat → Option (List Char)
  | 0 =>
    if name.isPrefixOf t then some (consumeSpacesComma (t.drop name.length))
    else none
  | j+1 =>
    if name.isPrefixOf (t.drop (j+1)) then
      some (consumeSpacesComma ((t.drop (j+1)).drop name.length))
    else tryNameFrom name t j

/-- Match `,?\s*NAME\s*,?` at the head of `s` (the optional comma is
preferred, as the regex engine does), returning the remainder. -/
def matchNamePat (name s : List Char) : Option (List Char) :=
  match s with
  | ',' :: t =>
    (match tryNameFrom name t (t.takeWhile isPySpace).length with
     | some r => some r
     | none => tryNameFrom name s (s.takeWhile isPySpace).length)
  | _ => tryNameFrom name s (s.takeWhile isPySpace).length

/-- `re.sub(r',?\s*' + re.escape(name) + r'\s*,?', '', line)`: remove every
occurrence, scanning left to right (fuel = length of the line). -/
def subNameAll (name : List Char) : Nat → List Char → List Char
  | _, [] => []
  | 0, s => s
  | fuel+1, c :: t =>
    match matchNamePat name (c :: t) with
    | some r => subNameAll name fuel r
    | none => c :: subNameAll name fuel t

/-- Shared model of the cleanup substitutions `re.sub(a\s*b, repl, line)`
for a literal pair `a`, `b` of punctuation characters. -/
def subPairAll (a b : Char) (repl : List Char) : Nat → List Char → List Char
  | _, [] => []
  | 0, s => s
  | fuel+1, c :: t =>
    if c = a then
      match t.dropWhile isPySpace with
      | bb :: rem =>
        if bb = b then repl ++ subPairAll a b repl fuel rem
        else c :: subPairAll a b repl fuel t
      | [] => c :: subPairAll a b repl fuel t
    else c :: subPairAll a b repl fuel t

/-- Match `import\s*\{\s*\}\s*from` at the head of the character list. -/
def matchImportEmptyAt (s : List Char) : Bool :=
  if "import".data.isPrefixOf s then
    match (s.drop 6).dropWhile isPySpace with
    | '\x7b' :: r2 =>
      (match r2.dropWhile isPySpace with
       | '\x7d' :: r4 => "from".data.isPrefixOf (r4.dropWhile isPySpace)
       | _ => false)
    | _ => false
  else false

/-- `re.search(r'import\s*\{\s*\}\s*from', line)`. -/
def searchImportEmpty : List Char → Bool
  | [] => false
  | c :: t => matchImportEmptyAt (c :: t) || searchImportEmpty t

/-- `apply_unused_import_removal`: extract the import name from the fix
description, then rewrite or delete the import line. -/
def apply_unused_import_removal (fs : FS) (file_path : String) (fix : Fix) :
    FS × Fix × Bool :=
  match fs file_path with
  | none => (fs, { fix with error := fileNotFoundError file_path }, false)
  | some lines =>
    if fix.line_number > (lines.length : Int) then
      (fs, { fix with error := "Ligne " ++ toString fix.line_number ++ " hors limites" }, false)
    else
      match pyGet lines (fix.line_number - 1) with
      | none => (fs, { fix with error := "list index out of range" }, false)
      | some original_line =>
        match searchImportName fix.description.data with
        | none =>
          (fs, { fix with error := "Impossible d\x27extraire le nom de l\x27import" }, false)
        | some name =>
          if strContains original_line "\x7b" && strContains original_line "\x7d" then
            let n1 := subNameAll name original_line.data.length original_line.data
            let n2 := subPairAll '\x7b' ',' ['\x7b'] n1.length n1
            let n3 := subPairAll ',' '\x7d' ['\x7d'] n2.length n2
            let new_line := String.mk (subPairAll '\x7b' '\x7d' [] n3.length n3)
            if searchImportEmpty new_line.data then
              (updateFS fs file_path (pyDel lines (fix.line_number - 1)),
               { fix with old_code := original_line.trim, new_code := "[ligne supprimée]" },
               true)
            else
              (updateFS fs file_path (pySet lines (fix.line_number - 1) new_line),
               { fix with old_code := original_line.trim, new_code := new_line.trim },
               true)
          else if strContains original_line ("import " ++ String.mk name) ||
                  strContains original_line ("import\t" ++ String.mk name) then
            (updateFS fs file_path (pyDel lines (fix.line_number - 1)),
             { fix with old_code := original_line.trim, new_code := "[ligne supprimée]" },
             true)
          else (fs, fix, false)

/-- The external syntax verifier (`verify_syntax`, a child-process call to
node or tsc): an oracle from path and post-mutation content to
success plus error message. -/
def Verifier : Type := String → Option (List String) → Bool × String

/-- The fix-type dispatch of `apply_fix` (step Transformed). -/
def runTransform (fs : FS) (file_path : String) (fix : Fix) : FS × Fix × Bool :=
  if fix.fix_type = "emoji_detected" then apply_emoji_removal fs file_path fix
  else if fix.fix_type = "console_log" then apply_console_log_removal fs file_path fix
  else if fix.fix_type = "unused_import" then apply_unused_import_removal fs file_path fix
  else (fs, { fix with error := "Type de correction non supporté : " ++ fix.fix_type }, false)

/-- Result of one `apply_fix` call: new file system, new backup directory,
the mutated `Fix` record, and the returned success flag. -/
structure ApplyFixResult where
  fs : FS
  bk : FS
  fix : Fix
  ok : Bool

/-- `CodeFixerV3.apply_fix`: locate, back up, transform, verify, and on
verification failure roll back and record the verifier's message. -/
def apply_fix (verifier : Verifier) (dry_run : Bool) (fs bk : FS) (fix : Fix) :
    ApplyFixResult :=
  match fs fix.file_path with
  | none => ⟨fs, bk, { fix with error := "Fichier introuvable : " ++ fix.file_path }, false⟩
  | some _ =>
    if dry_run then
      ⟨fs, bk,
       { fix with
          old_code := "[DRY-RUN - non modifié]",
          new_code := "[DRY-RUN - simulation]" }, true⟩
    else
      let bk1 := backup_file fs bk fix.file_path
      let t := runTransform fs fix.file_path fix
      if t.2.2 then
        let v := verifier fix.file_path (t.1 fix.file_path)
        if v.1 then ⟨t.1, bk1, t.2.1, true⟩
        else
          let rb := rollback_file t.1 bk1 fix.file_path
          ⟨rb.1, bk1,
           { t.2.1 with
             error := "Erreur de syntaxe après modification (ROLLBACK " ++
                      (if rb.2 then "✅" else "❌") ++ "): " ++ v.2,
             success := false }, false⟩
      else ⟨t.1, bk1, t.2.1, false⟩

/-- The mutable state of `apply_all_fixes`: file system, backups, and the
`fixes_applied` / `fixes_failed` lists. -/
structure FixerState where
  fs : FS
  bk : FS
  fixes_applied : List Fix
  fixes_failed : List Fix

/-- The body of the `for fix in file_fixes` loop of `apply_all_fixes`. -/
def applyAllStep (verifier : Verifier) (dry_run : Bool) (st : FixerState)
    (fix : Fix) : FixerState :=
  let r := apply_fix verifier dry_run st.fs st.bk fix
  if r.ok then
    { fs := r.fs, bk := r.bk,
      fixes_applied := st.fixes_applied ++ [{ r.fix with applied := true, success := true }],
      fixes_failed := st.fixes_failed }
  else
    { fs := r.fs, bk := r.bk,
      fixes_applied := st.fixes_applied,
      fixes_failed := st.fixes_failed ++ [{ r.fix with applied := true, success := false }] }

/-- The file keys of the `by_file` defaultdict of `apply_all_fixes`, in
insertion order. -/
def fixFileKeys (fixes : List Fix) : List String :=
  firstDedup (fixes.map Fix.file_path)

/-- The `by_file` grouping of `apply_all_fixes`. -/
def groupFixesByFile (fixes : List Fix) : List (String × List Fix) :=
  (fixFileKeys fixes).map (fun f => (f, fixes.filter (fun g => g.file_path == f)))

/-- `CodeFixerV3.apply_all_fixes`: apply every loaded fix, file by file. -/
def apply_all_fixes (verifier : Verifier) (dry_run : Bool) (fs bk : FS)
    (fixes : List Fix) : FixerState :=
  (groupFixesByFile fixes).foldl
    (fun st fg => fg.2.foldl (applyAllStep verifier dry_run) st)
    ⟨fs, bk, [], []⟩

end CodeFixerV3

/-- The `(file, line, type)` key of an approved correction. -/
def apKey (ap : ApprovedCorrection) : String × Int × String :=
  (ap.file, ap.line, ap.type)

/-! ## Concrete fixtures used to instantiate the theorems -/

/-- Issue builder for concrete test inputs. -/
def issueEx (agent file : String) (line : Int) (ty : String) (auto : Bool) : Issue :=
  { agent := agent, file_path := file, line_number := line, severity := "minor",
    issue_type := ty, description := "d", solution := "s", auto_fixable := auto }

/-- Three agents reporting the same emoji problem at lines 1, 3 and 5 of one
file, in reporting order A, B, C. -/
def permIssuesA : List Issue :=
  [issueEx "button-validator" "src/App.tsx" 1 "emoji_detected" true,
   issueEx "props-form-validator" "src/App.tsx" 3 "emoji_in_code" true,
   issueEx "dead-code-cleaner" "src/App.tsx" 5 "emoji_detected" true]

/-- The same three issues with the first two swapped. -/
def permIssuesB : List Issue :=
  [issueEx "props-form-validator" "src/App.tsx" 3 "emoji_in_code" true,
   issueEx "button-validator" "src/App.tsx" 1 "emoji_detected" true,
   issueEx "dead-code-cleaner" "src/App.tsx" 5 "emoji_detected" true]

/-- Fix builder for concrete test inputs. -/
def fixEx (file ty : String) (line : Int) : CodeFixerV3.Fix :=
  { agent := "agent", file_path := file, line_number := line, fix_type := ty,
    description := "d", solution := "s", old_code := "", new_code := "",
    confidence := 95 }

/-- The empty backup directory at the start of a session. -/
def bkEmpty : CodeFixerV3.FS := fun _ => none

/-- A project with one file holding two consecutive console.log lines. -/
def fsTwoLogs : CodeFixerV3.FS :=
  fun p => if p = "src/App.tsx" then some ["console.log(1);", "console.log(2);"] else none

/-- A verifier that accepts exactly the one-line versions of a file
(so the first deletion verifies and the second does not). -/
def verifierOneLine : CodeFixerV3.Verifier := fun _ c =>
  match c with
  | some l => if l.length = 1 then (true, "") else (false, "bad syntax")
  | none => (false, "missing")

/-- A verifier that always accepts. -/
def verifierOk : CodeFixerV3.Verifier := fun _ _ => (true, "")

/-- A verifier that always rejects with the message "boom". -/
def verifierBoom : CodeFixerV3.Verifier := fun _ _ => (false, "boom")

/-- A project with one file holding a single console.log line. -/
def fsOneLog : CodeFixerV3.FS :=
  fun p => if p = "src/App.tsx" then some ["console.log(1);"] else none

/-- A project with one file holding a line without any console call. -/
def fsPlain : CodeFixerV3.FS :=
  fun p => if p = "src/App.tsx" then some ["const x = 1;"] else none

/-- A project with one file holding an emoji line. -/
def fsEmoji : CodeFixerV3.FS :=
  fun p => if p = "src/App.tsx" then some ["hello 😀 world"] else none

/-- The Button.tsx scenario of the spec: an auto-fixable unused import from
one agent and a non-auto-fixable missing handler from another. -/
def buttonFileIssues : List Issue :=
  [issueEx "dead-code-cleaner" "Button.tsx" 15 "unused_import" true,
   issueEx "button-validator" "Button.tsx" 20 "missing_handler" false]

/-- Validation builder for concrete test inputs. -/
def valEx (file : String) (line : Int) (ty : String) (ap : Bool) : Validation :=
  { file_path := file, line_number := line, issue_type := ty, approved := ap,
    validation_confidence := 90, original_description := "d",
    proposed_solution := "s", source_agent := "agent" }

/-! ## General fold and list lemmas -/

/-- Invariant preservation through a left fold. -/
theorem foldl_preserve {α σ : Type _} {P : σ → Prop} {f : σ → α → σ}
    (hstep : ∀ s a, P s → P (f s a)) :
    ∀ (l : List α) (s : σ), P s → P (l.foldl f s)
  | [], _, h => h
  | a :: l, s, h => foldl_preserve hstep l (f s a) (hstep s a h)

/-- Membership in the insertion-order deduplication, relative to the seen set. -/
theorem mem_firstDedupAux (x : String) :
    ∀ (l : List String) (seen : List String),
      x ∈ firstDedupAux seen l ↔ x ∈ l ∧ x ∉ seen := by
  intro l
  induction l with
  | nil => intro seen; simp [firstDedupAux]
  | cons y ys ih =>
    intro seen
    by_cases hy : y ∈ seen
    · simp only [firstDedupAux, if_pos hy, ih]
      constructor
      · rintro ⟨hx, hs⟩; exact ⟨List.mem_cons_of_mem _ hx, hs⟩
      · rintro ⟨hx, hs⟩
        rcases List.mem_cons.mp hx with rfl | hx
        · exact absurd hy hs
        · exact ⟨hx, hs⟩
    · simp only [firstDedupAux, if_neg hy, List.mem_cons, ih]
      constructor
      · rintro (rfl | ⟨hx, hs⟩)
        · exact ⟨Or.inl rfl, hy⟩
        · refine ⟨Or.inr hx, fun hc => hs (List.mem_append_left _ hc)⟩
      · rintro ⟨rfl | hx, hs⟩
        · exact Or.inl rfl
        · by_cases hxy : x = y
          · exact Or.inl hxy
          · refine Or.inr ⟨hx, fun hc => ?_⟩
            rcases List.mem_append.mp hc with hc | hc
            · exact hs hc
            · exact hxy (List.mem_singleton.mp hc)

/-- Membership in `firstDedup` is membership in the input. -/
theorem mem_firstDedup (x : String) (l : List String) :
    x ∈ firstDedup l ↔ x ∈ l := by
  simp [firstDedup, mem_firstDedupAux]

/-- The deduplicated key list has no duplicates. -/
theorem nodup_firstDedupAux :
    ∀ (l : List String) (seen : List String), (firstDedupAux seen l).Nodup := by
  intro l
  induction l with
  | nil => intro seen; simp [firstDedupAux]
  | cons y ys ih =>
    intro seen
    by_cases hy : y ∈ seen
    · simpa [firstDedupAux, if_pos hy] using ih seen
    · simp only [firstDedupAux, if_neg hy, List.nodup_cons]
      refine ⟨fun hc => ?_, ih _⟩
      rcases (mem_firstDedupAux y ys _).mp hc with ⟨_, hs⟩
      exact hs (List.mem_append_right _ (List.mem_singleton.mpr rfl))

/-- The deduplicated key list has no duplicates. -/
theorem nodup_firstDedup (l : List String) : (firstDedup l).Nodup :=
  nodup_firstDedupAux l []

/-! ## C9: the issue-type normalizer -/

/-- C9 counterexample: the input "Button" contains none of the substrings
listed by the claim (emoji, console, import, comment, consistency,
cohérence), yet the normalizer does not return the lower-cased input
unchanged: it returns "button_issue" through the undocumented button rule. -/
theorem normalize_button_counterexample :
    strContains (toLowerStr "Button") "emoji" = false ∧
    strContains (toLowerStr "Button") "console" = false ∧
    strContains (toLowerStr "Button") "import" = false ∧
    strContains (toLowerStr "Button") "comment" = false ∧
    strContains (toLowerStr "Button") "consistency" = false ∧
    strContains (toLowerStr "Button") "cohérence" = false ∧
    normalize_issue_type "Button" = "button_issue" ∧
    normalize_issue_type "Button" ≠ toLowerStr "Button" := by decide

/-- C9 amended: on every input over the Latin-1 repertoire (where the
embedded lowercasing provably coincides with Python `str.lower()`, and
which covers every issue type the analyzers emit, `cohérence` included) the
normalizer is a total function deciding, in order, the case-insensitive
substring rules emoji → emoji, console → console_log, the rule
mapping import → unused_import, comment → commented_code, button → button_issue,
prop → props_issue, consistency/cohérence → consistency, and returns the
lower-cased input unchanged when none of the eight substrings occurs. -/
theorem normalize_issue_type_characterization (s : String)
    (hlat : ∀ c ∈ s.data, c.toNat < 256) :
    (strContains (toLowerStr s) "emoji" = true →
      normalize_issue_type s = "emoji") ∧
    (strContains (toLowerStr s) "emoji" = false →
     strContains (toLowerStr s) "console" = true →
      normalize_issue_type s = "console_log") ∧
    (strContains (toLowerStr s) "emoji" = false →
     strContains (toLowerStr s) "console" = false →
     strContains (toLowerStr s) "import" = true →
      normalize_issue_type s = "unused_import") ∧
    (strContains (toLowerStr s) "emoji" = false →
     strContains (toLowerStr s) "console" = false →
     strContains (toLowerStr s) "import" = false →
     strContains (toLowerStr s) "comment" = true →
      normalize_issue_type s = "commented_code") ∧
    (strContains (toLowerStr s) "emoji" = false →
     strContains (toLowerStr s) "console" = false →
     strContains (toLowerStr s) "import" = false →
     strContains (toLowerStr s) "comment" = false →
     strContains (toLowerStr s) "button" = true →
      normalize_issue_type s = "button_issue") ∧
    (strContains (toLowerStr s) "emoji" = false →
     strContains (toLowerStr s) "console" = false →
     strContains (toLowerStr s) "import" = false →
     strContains (toLowerStr s) "comment" = false →
     strContains (toLowerStr s) "button" = false →
     strContains (toLowerStr s) "prop" = true →
      normalize_issue_type s = "props_issue") ∧
    (strContains (toLowerStr s) "emoji" = false →
     strContains (toLowerStr s) "console" = false →
     strContains (toLowerStr s) "import" = false →
     strContains (toLowerStr s) "comment" = false →
     strContains (toLowerStr s) "button" = false →
     strContains (toLowerStr s) "prop" = false →
     (strContains (toLowerStr s) "consistency" = true ∨
      strContains (toLowerStr s) "cohérence" = true) →
      normalize_issue_type s = "consistency") ∧
    (strContains (toLowerStr s) "emoji" = false →
     strContains (toLowerStr s) "console" = false →
     strContains (toLowerStr s) "import" = false →
     strContains (toLowerStr s) "comment" = false →
     strContains (toLowerStr s) "button" = false →
     strContains (toLowerStr s) "prop" = false →
     strContains (toLowerStr s) "consistency" = false →
     strContains (toLowerStr s) "cohérence" = false →
      normalize_issue_type s = toLowerStr s) := by
  refine ⟨?_, ?_, ?_, ?_, ?_, ?_, ?_, ?_⟩
  · intro h1; simp [normalize_issue_type, h1]
  · intro h1 h2; simp [normalize_issue_type, h1, h2]
  · intro h1 h2 h3; simp [normalize_issue_type, h1, h2, h3]
  · intro h1 h2 h3 h4; simp [normalize_issue_type, h1, h2, h3, h4]
  · intro h1 h2 h3 h4 h5; simp [normalize_issue_type, h1, h2, h3, h4, h5]
  · intro h1 h2 h3 h4 h5 h6; simp [normalize_issue_type, h1, h2, h3, h4, h5, h6]
  · intro h1 h2 h3 h4 h5 h6 h7
    rcases h7 with h7 | h7 <;>
      simp [normalize_issue_type, h1, h2, h3, h4, h5, h6, h7]
  · intro h1 h2 h3 h4 h5 h6 h7 h8
    simp [normalize_issue_type, h1, h2, h3, h4, h5, h6, h7, h8]

/-- Witness for the C9 amended theorem at the unrecognized input
"Custom_Type". -/
theorem normalize_issue_type_characterization_witness :
    normalize_issue_type "Custom_Type" = toLowerStr "Custom_Type" :=
  (normalize_issue_type_characterization "Custom_Type"
      (by decide)).2.2.2.2.2.2.2
    (by decide) (by decide) (by decide) (by decide)
    (by decide) (by decide) (by decide) (by decide)

/-! ## C5: symmetry and order-dependence of the fine-grained matcher -/

/-- C5 counterexample: two permutations of the same three issues (same file,
same normalized type, lines 1, 3 and 5, tolerance 2) produce different
partitions: seeded at line 1 the group is A, B and C is rejected; seeded at
line 3 the group is B, A, C and nothing is rejected. -/
theorem find_consensus_not_perm_invariant :
    permIssuesA.Perm permIssuesB ∧
    find_consensus 2 permIssuesA 2 ≠ find_consensus 2 permIssuesB 2 := by
  exact ⟨by decide, by decide⟩

/-- C5 amended: the pairwise match relation is symmetric (the grouping
itself, being greedy first-come claiming, is only deterministic for a fixed
input order, not permutation-invariant). -/
theorem issues_match_symm (tolerance : Int) (i1 i2 : Issue) :
    issues_match tolerance i1 i2 = issues_match tolerance i2 i1 := by
  unfold issues_match
  have habs : ((i1.line_number - i2.line_number).natAbs : Int) =
      ((i2.line_number - i1.line_number).natAbs : Int) := by
    have h : (i1.line_number - i2.line_number).natAbs =
        (i2.line_number - i1.line_number).natAbs := by
      rw [← Int.natAbs_neg (i1.line_number - i2.line_number), neg_sub]
    exact_mod_cast h
  by_cases hf : i1.file_path = i2.file_path
  · have h1 : ¬ i1.file_path ≠ i2.file_path := by simpa using hf
    have h2 : ¬ i2.file_path ≠ i1.file_path := by simpa using hf.symm
    rw [if_neg h1, if_neg h2, habs]
    by_cases ht : ((i2.line_number - i1.line_number).natAbs : Int) > tolerance
    · rw [if_pos ht, if_pos ht]
    · rw [if_neg ht, if_neg ht]
      exact decide_eq_decide.mpr ⟨Eq.symm, Eq.symm⟩
  · rw [if_pos hf, if_pos (Ne.symm hf)]

/-! ## C2 and C6: invariants of the fine-grained matcher -/

/-- Appending a fresh element preserves `Nodup`. -/
theorem nodup_append_singleton {α : Type _} (l : List α) (a : α)
    (hl : l.Nodup) (ha : a ∉ l) : (l ++ [a]).Nodup := by
  simp [List.nodup_append, hl, ha]

/-- The collection loop keeps the agent list in lockstep with the issue
list: the agents are exactly the issues' agents, pairwise distinct, and the
group is never empty. -/
theorem collectMatching_spec (tol : Int) (processed : List Nat)
    (seed : Nat × Issue) (group : List (Nat × Issue)) :
    (collectMatching tol processed seed group).2 =
      (collectMatching tol processed seed group).1.map (fun p => p.2.agent) ∧
    (collectMatching tol processed seed group).2.Nodup ∧
    (collectMatching tol processed seed group).1 ≠ [] := by
  unfold collectMatching
  refine foldl_preserve
    (P := fun acc : List (Nat × Issue) × List String =>
      acc.2 = acc.1.map (fun p => p.2.agent) ∧ acc.2.Nodup ∧ acc.1 ≠ [])
    ?_ group ([seed], [seed.2.agent]) ⟨rfl, List.nodup_singleton _, by simp⟩
  intro s a hP
  dsimp only
  split
  · exact hP
  · split
    · rename_i hcond
      refine ⟨?_, ?_, ?_⟩
      · simp [hP.1]
      · exact nodup_append_singleton _ _ hP.2.1 hcond.2
      · simp
    · exact hP

/-- Every member of a collected group is the seed or was unclaimed when the
collection started. -/
theorem collectMatching_unprocessed (tol : Int) (processed : List Nat)
    (seed : Nat × Issue) (group : List (Nat × Issue)) :
    ∀ p ∈ (collectMatching tol processed seed group).1,
      p = seed ∨ p.1 ∉ processed := by
  unfold collectMatching
  refine foldl_preserve
    (P := fun acc : List (Nat × Issue) × List String =>
      ∀ p ∈ acc.1, p = seed ∨ p.1 ∉ processed)
    ?_ group ([seed], [seed.2.agent]) ?_
  · intro s a hP
    dsimp only
    split
    · exact hP
    · rename_i hskip
      split
      · intro p hp
        rcases List.mem_append.mp hp with hp | hp
        · exact hP p hp
        · right
          rw [List.mem_singleton.mp hp]
          intro hc
          exact hskip (Or.inr hc)
      · exact hP
  · intro p hp
    left
    exact List.mem_singleton.mp hp

/-- Every consensus group satisfies the agreement invariant: distinct
agents and at least `min_agents` members. -/
theorem consensusFold_groups (tol min_agents : Int)
    (byFile : List (String × List (Nat × Issue))) :
    ∀ g ∈ (consensusFold tol min_agents byFile).groups,
      (g.map (fun p => p.2.agent)).Nodup ∧ min_agents ≤ (g.length : Int) ∧
      g ≠ [] := by
  unfold consensusFold
  refine foldl_preserve
    (P := fun st : ConsensusState =>
      ∀ g ∈ st.groups,
        (g.map (fun p => p.2.agent)).Nodup ∧ min_agents ≤ (g.length : Int) ∧
        g ≠ [])
    ?_ byFile ⟨[], []⟩ (by intro g hg; simp at hg)
  intro st fg hP
  refine foldl_preserve
    (P := fun st : ConsensusState =>
      ∀ g ∈ st.groups,
        (g.map (fun p => p.2.agent)).Nodup ∧ min_agents ≤ (g.length : Int) ∧
        g ≠ [])
    ?_ fg.2 st hP
  intro st ix hQ
  dsimp only
  split
  · exact hQ
  · split
    · rename_i hmin
      intro g hg
      rcases List.mem_append.mp hg with hg | hg
      · exact hQ g hg
      · rw [List.mem_singleton.mp hg]
        obtain ⟨heq, hnd, hne⟩ := collectMatching_spec tol st.processed ix fg.2
        refine ⟨by rw [← heq]; exact hnd, ?_, hne⟩
        have hlen : (collectMatching tol st.processed ix fg.2).2.length =
            (collectMatching tol st.processed ix fg.2).1.length := by
          rw [heq, List.length_map]
        rw [← hlen]
        exact hmin
    · exact hQ

/-- C2: every `ConsensusIssue` produced by `find_consensus` has
`consensus_level` equal to the number of agents in `agreed_by`, the agents
in `agreed_by` pairwise distinct, and at least `min_agents` of them. -/
theorem find_consensus_agreement_invariant (tolerance min_agents : Int)
    (all_issues : List Issue) (ci : ConsensusIssue)
    (hci : ci ∈ (find_consensus tolerance all_issues min_agents).1) :
    ci.consensus_level = ci.agreed_by.length ∧ ci.agreed_by.Nodup ∧
    min_agents ≤ (ci.consensus_level : Int) := by
  unfold find_consensus at hci
  rcases List.mem_map.mp hci with ⟨g, hg, rfl⟩
  obtain ⟨hnd, hlen, hne⟩ := consensusFold_groups tolerance min_agents _ g hg
  have hmne : g.map Prod.snd ≠ [] := by
    intro hc
    exact hne (List.map_eq_nil_iff.mp hc)
  cases hm : g.map Prod.snd with
  | nil => exact absurd hm hmne
  | cons primary rest =>
    have hagents : (primary :: rest).map Issue.agent =
        g.map (fun p => p.2.agent) := by
      rw [← hm, List.map_map]
      rfl
    have hglen : (primary :: rest).length = g.length := by
      rw [← hm, List.length_map]
    refine ⟨?_, ?_, ?_⟩
    · show (primary :: rest).length = ((primary :: rest).map Issue.agent).length
      rw [List.length_map]
    · show ((primary :: rest).map Issue.agent).Nodup
      rw [hagents]; exact hnd
    · show min_agents ≤ ((primary :: rest).length : Int)
      rw [hglen]; exact hlen

/-- Witness for C2 at a concrete two-agent consensus. -/
theorem find_consensus_agreement_invariant_witness :
    (create_consensus_issue
      [issueEx "a" "f.ts" 1 "emoji" true, issueEx "b" "f.ts" 1 "emoji" true]).consensus_level =
      (create_consensus_issue
        [issueEx "a" "f.ts" 1 "emoji" true, issueEx "b" "f.ts" 1 "emoji" true]).agreed_by.length ∧
    (create_consensus_issue
      [issueEx "a" "f.ts" 1 "emoji" true, issueEx "b" "f.ts" 1 "emoji" true]).agreed_by.Nodup ∧
    (2 : Int) ≤ ((create_consensus_issue
      [issueEx "a" "f.ts" 1 "emoji" true, issueEx "b" "f.ts" 1 "emoji" true]).consensus_level : Int) :=
  find_consensus_agreement_invariant 2 2
    [issueEx "a" "f.ts" 1 "emoji" true, issueEx "b" "f.ts" 1 "emoji" true]
    (create_consensus_issue
      [issueEx "a" "f.ts" 1 "emoji" true, issueEx "b" "f.ts" 1 "emoji" true])
    (by
      have h : (find_consensus 2
          [issueEx "a" "f.ts" 1 "emoji" true, issueEx "b" "f.ts" 1 "emoji" true] 2).1 =
          [create_consensus_issue
            [issueEx "a" "f.ts" 1 "emoji" true, issueEx "b" "f.ts" 1 "emoji" true]] := by rfl
      rw [h]
      exact List.mem_singleton_self _)

/-- Claimed issues are fully recorded in `processed`, and the recorded
groups are pairwise disjoint on issue identity. -/
theorem consensusFold_disjoint (tol min_agents : Int)
    (byFile : List (String × List (Nat × Issue))) :
    (∀ g ∈ (consensusFold tol min_agents byFile).groups, ∀ p ∈ g,
        p.1 ∈ (consensusFold tol min_agents byFile).processed) ∧
    (consensusFold tol min_agents byFile).groups.Pairwise
      (fun g h => ∀ p ∈ g, ∀ q ∈ h, p.1 ≠ q.1) := by
  unfold consensusFold
  refine foldl_preserve
    (P := fun st : ConsensusState =>
      (∀ g ∈ st.groups, ∀ p ∈ g, p.1 ∈ st.processed) ∧
      st.groups.Pairwise (fun g h => ∀ p ∈ g, ∀ q ∈ h, p.1 ≠ q.1))
    ?_ byFile ⟨[], []⟩ ⟨by intro g hg; simp at hg, by simp⟩
  intro st fg hP
  refine foldl_preserve
    (P := fun st : ConsensusState =>
      (∀ g ∈ st.groups, ∀ p ∈ g, p.1 ∈ st.processed) ∧
      st.groups.Pairwise (fun g h => ∀ p ∈ g, ∀ q ∈ h, p.1 ≠ q.1))
    ?_ fg.2 st hP
  intro st ix hQ
  dsimp only
  split
  · exact hQ
  · rename_i hseed
    split
    · constructor
      · intro g hg p hp
        rcases List.mem_append.mp hg with hg | hg
        · exact List.mem_append_left _ (hQ.1 g hg p hp)
        · rw [List.mem_singleton.mp hg] at hp
          exact List.mem_append_right _ (List.mem_map_of_mem Prod.fst hp)
      · rw [List.pairwise_append]
        refine ⟨hQ.2, List.pairwise_singleton _ _, ?_⟩
        intro g hg b hb p hp q hq
        rw [List.mem_singleton.mp hb] at hq
        have hqn : q.1 ∉ st.processed := by
          rcases collectMatching_unprocessed tol st.processed ix fg.2 q hq with rfl | h
          · exact hseed
          · exact h
        intro hc
        exact hqn (hc ▸ hQ.1 g hg p hp)
    · exact hQ

/-- C6: within one fine-grained run, every issue (identified by its position
in the input list, the model of Python object identity) contributes to at
most one consensus group: the groups that `find_consensus` turns into
`ConsensusIssue` records are pairwise disjoint. -/
theorem find_consensus_groups_disjoint (tolerance min_agents : Int)
    (all_issues : List Issue) :
    (consensusFold tolerance min_agents (issuesByFile all_issues.enum)).groups.Pairwise
      (fun g h => ∀ p ∈ g, ∀ q ∈ h, p.1 ≠ q.1) :=
  (consensusFold_disjoint tolerance min_agents (issuesByFile all_issues.enum)).2

/-- Witness for C6 at a concrete input. -/
theorem find_consensus_groups_disjoint_witness :
    (consensusFold 2 2 (issuesByFile permIssuesA.enum)).groups.Pairwise
      (fun g h => ∀ p ∈ g, ∀ q ∈ h, p.1 ≠ q.1) :=
  find_consensus_groups_disjoint 2 2 permIssuesA

/-! ## C7 and C10: file-level consensus -/

/-- A file key occurs exactly when some issue reports that file. -/
theorem mem_fileKeysV2 (all_issues : List Issue) (f : String) :
    f ∈ fileKeysV2 all_issues ↔ ∃ i ∈ all_issues, i.file_path = f := by
  unfold fileKeysV2
  rw [mem_firstDedup, List.mem_map]

/-- An agent key of a file occurs exactly when that agent reported an issue
in that file. -/
theorem mem_agentKeysV2 (all_issues : List Issue) (f a : String) :
    a ∈ agentKeysV2 all_issues f ↔
      ∃ i ∈ all_issues, i.file_path = f ∧ i.agent = a := by
  unfold agentKeysV2
  rw [mem_firstDedup, List.mem_map]
  constructor
  · rintro ⟨i, hi, rfl⟩
    rw [List.mem_filter] at hi
    exact ⟨i, hi.1, by simpa using hi.2, rfl⟩
  · rintro ⟨i, hi, hf, rfl⟩
    exact ⟨i, List.mem_filter.mpr ⟨hi, by simpa using hf⟩, rfl⟩

/-- The flattened per-file bucket holds exactly the issues of that file. -/
theorem mem_allFileIssuesV2 (all_issues : List Issue) (f : String) (x : Issue) :
    x ∈ allFileIssuesV2 all_issues f ↔ x ∈ all_issues ∧ x.file_path = f := by
  unfold allFileIssuesV2
  rw [List.mem_flatMap]
  constructor
  · rintro ⟨a, _, hx⟩
    rw [List.mem_filter] at hx
    refine ⟨hx.1, ?_⟩
    have := hx.2
    simp only [Bool.and_eq_true, beq_iff_eq] at this
    exact this.1
  · rintro ⟨hx, hf⟩
    refine ⟨x.agent, (mem_agentKeysV2 all_issues f x.agent).mpr ⟨x, hx, hf, rfl⟩, ?_⟩
    rw [List.mem_filter]
    exact ⟨hx, by simp [hf]⟩

/-- The auto-fixable bucket of a file holds exactly its auto-fixable issues. -/
theorem mem_autoFixableFileIssuesV2 (all_issues : List Issue) (f : String) (x : Issue) :
    x ∈ autoFixableFileIssuesV2 all_issues f ↔
      x ∈ all_issues ∧ x.file_path = f ∧ x.auto_fixable = true := by
  unfold autoFixableFileIssuesV2
  rw [List.mem_filter, mem_allFileIssuesV2]
  tauto

/-- Unfolded shape of the validated-issues list of the file-level fold. -/
theorem consensusV2_fold_validated (min_agents : Int) (all_issues : List Issue) :
    ∀ (keys : List String) (r : ConsensusResultV2),
      (keys.foldl (consensusV2Step min_agents all_issues) r).validated_issues =
        r.validated_issues ++ keys.flatMap (fun f =>
          if ((agentKeysV2 all_issues f).length : Int) ≥ min_agents
          then autoFixableFileIssuesV2 all_issues f else [])
  | [], r => by simp
  | f :: keys, r => by
    rw [List.foldl_cons, consensusV2_fold_validated min_agents all_issues keys _]
    by_cases h : ((agentKeysV2 all_issues f).length : Int) ≥ min_agents
    · simp [consensusV2Step, h]
    · simp [consensusV2Step, h]

/-- Unfolded shape of the rejected-issues list of the file-level fold. -/
theorem consensusV2_fold_rejected (min_agents : Int) (all_issues : List Issue) :
    ∀ (keys : List String) (r : ConsensusResultV2),
      (keys.foldl (consensusV2Step min_agents all_issues) r).rejected_issues =
        r.rejected_issues ++ keys.flatMap (fun f =>
          if ((agentKeysV2 all_issues f).length : Int) ≥ min_agents
          then [] else autoFixableFileIssuesV2 all_issues f)
  | [], r => by simp
  | f :: keys, r => by
    rw [List.foldl_cons, consensusV2_fold_rejected min_agents all_issues keys _]
    by_cases h : ((agentKeysV2 all_issues f).length : Int) ≥ min_agents
    · simp [consensusV2Step, h]
    · simp [consensusV2Step, h]

/-- C7: in file-level mode an issue is validated exactly when it is
auto-fixable and its file was reported by at least `min_agents` distinct
agents (`agentKeysV2` is the deduplicated agent list of the file): exactly
the auto-fixable issues of qualifying files are promoted, and no issue of a
file below the threshold is validated. -/
theorem find_consensus_v2_validated_characterization (min_agents : Int)
    (all_issues : List Issue) (i : Issue) :
    i ∈ (find_consensus_v2 min_agents all_issues).validated_issues ↔
      i ∈ all_issues ∧ i.auto_fixable = true ∧
      ((agentKeysV2 all_issues i.file_path).length : Int) ≥ min_agents := by
  unfold find_consensus_v2
  rw [consensusV2_fold_validated min_agents all_issues (fileKeysV2 all_issues) _]
  simp only [List.nil_append]
  rw [List.mem_flatMap]
  constructor
  · rintro ⟨f, hf, hi⟩
    by_cases h : ((agentKeysV2 all_issues f).length : Int) ≥ min_agents
    · rw [if_pos h] at hi
      obtain ⟨hmem, hfile, hauto⟩ := (mem_autoFixableFileIssuesV2 all_issues f i).mp hi
      subst hfile
      exact ⟨hmem, hauto, h⟩
    · rw [if_neg h] at hi
      cases hi
  · rintro ⟨hmem, hauto, hcond⟩
    refine ⟨i.file_path, (mem_fileKeysV2 all_issues i.file_path).mpr ⟨i, hmem, rfl⟩, ?_⟩
    rw [if_pos hcond]
    exact (mem_autoFixableFileIssuesV2 all_issues i.file_path i).mpr ⟨hmem, rfl, hauto⟩

/-- Witness for C7 on the Button.tsx scenario: the auto-fixable
unused-import issue is promoted. -/
theorem find_consensus_v2_validated_characterization_witness :
    issueEx "dead-code-cleaner" "Button.tsx" 15 "unused_import" true ∈
      (find_consensus_v2 2 buttonFileIssues).validated_issues :=
  (find_consensus_v2_validated_characterization 2 buttonFileIssues
    (issueEx "dead-code-cleaner" "Button.tsx" 15 "unused_import" true)).mpr
    ⟨by decide, by decide, by decide⟩

/-- C10: in file-level mode the rejected-issues list holds only auto-fixable
issues; a non-auto-fixable issue appears in neither per-issue output list. -/
theorem find_consensus_v2_rejected_only_auto (min_agents : Int)
    (all_issues : List Issue) :
    (∀ i ∈ (find_consensus_v2 min_agents all_issues).rejected_issues,
        i.auto_fixable = true) ∧
    (∀ i : Issue, i.auto_fixable = false →
        i ∉ (find_consensus_v2 min_agents all_issues).validated_issues ∧
        i ∉ (find_consensus_v2 min_agents all_issues).rejected_issues) := by
  have hrej : ∀ i ∈ (find_consensus_v2 min_agents all_issues).rejected_issues,
      i.auto_fixable = true := by
    intro i hi
    unfold find_consensus_v2 at hi
    rw [consensusV2_fold_rejected min_agents all_issues (fileKeysV2 all_issues) _] at hi
    simp only [List.nil_append] at hi
    rw [List.mem_flatMap] at hi
    obtain ⟨f, _, hi⟩ := hi
    by_cases h : ((agentKeysV2 all_issues f).length : Int) ≥ min_agents
    · rw [if_pos h] at hi; cases hi
    · rw [if_neg h] at hi
      exact ((mem_autoFixableFileIssuesV2 all_issues f i).mp hi).2.2
  refine ⟨hrej, ?_⟩
  intro i hfalse
  constructor
  · intro hc
    have := ((find_consensus_v2_validated_characterization min_agents all_issues i).mp hc).2.1
    rw [hfalse] at this
    cases this
  · intro hc
    have := hrej i hc
    rw [hfalse] at this
    cases this

/-- Witness for C10: the non-auto-fixable missing-handler issue of
Button.tsx is in neither output list. -/
theorem find_consensus_v2_rejected_only_auto_witness :
    issueEx "button-validator" "Button.tsx" 20 "missing_handler" false ∉
      (find_consensus_v2 2 buttonFileIssues).validated_issues ∧
    issueEx "button-validator" "Button.tsx" 20 "missing_handler" false ∉
      (find_consensus_v2 2 buttonFileIssues).rejected_issues :=
  (find_consensus_v2_rejected_only_auto 2 buttonFileIssues).2
    (issueEx "button-validator" "Button.tsx" 20 "missing_handler" false) rfl

/-! ## C4: dual-validator arbitration -/

/-- A successful match returns an entry of the second report with the same
`(file_path, line_number, issue_type)` key. -/
theorem find_matching_some_key (val1 : Validation) (v2s : List Validation)
    (val2 : Validation) (h : find_matching_validation val1 v2s = some val2) :
    val2 ∈ v2s ∧ valKey val2 = valKey val1 := by
  refine ⟨List.mem_of_find?_eq_some h, ?_⟩
  have hp := List.find?_some h
  simp only [Bool.and_eq_true, beq_iff_eq] at hp
  simp [valKey, hp.1.1, hp.1.2, hp.2]

/-- When the second report has an entry with the right key, the matcher
finds one (the first such entry). -/
theorem find_matching_of_mem (val1 b : Validation) (v2s : List Validation)
    (hb : b ∈ v2s) (hk : valKey b = valKey val1) :
    ∃ val2, find_matching_validation val1 v2s = some val2 ∧
      valKey val2 = valKey val1 := by
  cases h : find_matching_validation val1 v2s with
  | some val2 => exact ⟨val2, rfl, (find_matching_some_key val1 v2s val2 h).2⟩
  | none =>
    exfalso
    have hnone := List.find?_eq_none.mp h b hb
    apply hnone
    have h1 : b.file_path = val1.file_path := congrArg Prod.fst hk
    have h2 : b.line_number = val1.line_number :=
      congrArg (fun p => p.2.1) hk
    have h3 : b.issue_type = val1.issue_type :=
      congrArg (fun p => p.2.2) hk
    simp [h1, h2, h3]

/-- The approved list grows by at most the one matched, doubly-approved
entry per iteration. -/
theorem compareValidationsStep_approved (v2s : List Validation)
    (r : ValidationConsensusResult) (val1 : Validation) :
    (compareValidationsStep v2s r val1).approved_corrections =
      r.approved_corrections ++
        (match find_matching_validation val1 v2s with
         | none => []
         | some val2 => if val1.approved && val2.approved
                        then [approvedEntry val1 val2] else []) := by
  unfold compareValidationsStep
  cases find_matching_validation val1 v2s with
  | none => simp
  | some val2 =>
    by_cases h : val1.approved && val2.approved
    · simp [h]
    · by_cases h2 : !val1.approved && !val2.approved
      · simp [h, h2]
      · simp [h, h2]

/-- Membership in the approved list accumulated by the comparison fold. -/
theorem compareValidations_fold_approved (v2s : List Validation) :
    ∀ (v1s : List Validation) (r : ValidationConsensusResult)
      (x : ApprovedCorrection),
      (x ∈ (v1s.foldl (compareValidationsStep v2s) r).approved_corrections ↔
        x ∈ r.approved_corrections ∨
        ∃ val1 ∈ v1s, ∃ val2, find_matching_validation val1 v2s = some val2 ∧
          val1.approved = true ∧ val2.approved = true ∧
          x = approvedEntry val1 val2)
  | [], r, x => by simp
  | val1 :: v1s, r, x => by
    rw [List.foldl_cons, compareValidations_fold_approved v2s v1s _ x,
        compareValidationsStep_approved v2s r val1]
    cases hm : find_matching_validation val1 v2s with
    | none =>
      simp only [List.append_nil, List.mem_cons]
      constructor
      · rintro (hx | ⟨a, ha, val2, hf, h⟩)
        · exact Or.inl hx
        · exact Or.inr ⟨a, Or.inr ha, val2, hf, h⟩
      · rintro (hx | ⟨a, rfl | ha, val2, hf, h⟩)
        · exact Or.inl hx
        · rw [hm] at hf; cases hf
        · exact Or.inr ⟨a, ha, val2, hf, h⟩
    | some val2 =>
      dsimp only
      by_cases hap : val1.approved && val2.approved
      · rw [if_pos hap]
        simp only [List.mem_append, List.mem_cons, List.not_mem_nil, or_false]
        have hap1 : val1.approved = true := (Bool.and_eq_true _ _ ▸ hap).1
        have hap2 : val2.approved = true := (Bool.and_eq_true _ _ ▸ hap).2
        constructor
        · rintro ((hx | rfl) | ⟨a, ha, b, hf, h⟩)
          · exact Or.inl hx
          · exact Or.inr ⟨val1, Or.inl rfl, val2, hm, hap1, hap2, rfl⟩
          · exact Or.inr ⟨a, Or.inr ha, b, hf, h⟩
        · rintro (hx | ⟨a, rfl | ha, b, hf, h⟩)
          · exact Or.inl (Or.inl hx)
          · rw [hm] at hf
            cases hf
            exact Or.inl (Or.inr h.2.2)
          · exact Or.inr ⟨a, ha, b, hf, h⟩
      · rw [if_neg hap]
        simp only [List.append_nil, List.mem_cons]
        constructor
        · rintro (hx | ⟨a, ha, b, hf, h⟩)
          · exact Or.inl hx
          · exact Or.inr ⟨a, Or.inr ha, b, hf, h⟩
        · rintro (hx | ⟨a, rfl | ha, b, hf, h⟩)
          · exact Or.inl hx
          · rw [hm] at hf
            cases hf
            exact absurd (by rw [h.1, h.2.1]; rfl) hap
          · exact Or.inr ⟨a, ha, b, hf, h⟩

/-- C4 amended: provided the second validator report carries at most one
entry per `(file, line, type)` key, dual-reviewer arbitration approves a
key iff both validator reports carry an approving entry for that key; any
disagreement or missing counterpart keeps the key out of the approved
list.  Without that proviso the equivalence fails: the matcher pairs each
first-pass entry with only the first same-key entry of the second pass
(see the counterexample). -/
theorem compare_validations_approved_iff (validations1 validations2 : List Validation)
    (hnd : (validations2.map valKey).Nodup) (k : String × Int × String) :
    (∃ ap ∈ (compare_validations validations1 validations2).approved_corrections,
        apKey ap = k) ↔
      ((∃ a ∈ validations1, valKey a = k ∧ a.approved = true) ∧
       (∃ b ∈ validations2, valKey b = k ∧ b.approved = true)) := by
  unfold compare_validations
  constructor
  · rintro ⟨ap, hap, rfl⟩
    rcases (compareValidations_fold_approved validations2 validations1 _ ap).mp hap with
      hin | ⟨val1, h1, val2, hf, ha1, ha2, rfl⟩
    · simp at hin
    · obtain ⟨hmem2, hkey2⟩ := find_matching_some_key val1 validations2 val2 hf
      have hkey : apKey (approvedEntry val1 val2) = valKey val1 := rfl
      rw [hkey]
      exact ⟨⟨val1, h1, rfl, ha1⟩, ⟨val2, hmem2, hkey2, ha2⟩⟩
  · rintro ⟨⟨a, ha, hak, haap⟩, ⟨b, hb, hbk, hbap⟩⟩
    obtain ⟨val2, hf, hk2⟩ :=
      find_matching_of_mem a b validations2 hb (by rw [hbk, hak])
    have hval2b : val2 = b := by
      apply List.inj_on_of_nodup_map hnd
      · exact (find_matching_some_key a validations2 val2 hf).1
      · exact hb
      · rw [hk2, hak, hbk]
    refine ⟨approvedEntry a val2, ?_, ?_⟩
    · exact (compareValidations_fold_approved validations2 validations1 _ _).mpr
        (Or.inr ⟨a, ha, val2, hf, haap, by rw [hval2b]; exact hbap, rfl⟩)
    · show valKey a = k
      exact hak

/-- C4 counterexample: the pooled issue list can carry two corrections with
the same `(file, line, type)` key and opposite verdicts (for console-log
removal the verdict depends on the free-text description).  Both validator
passes then hold an approving entry for the key, yet `compare_validations`
pairs the first-pass approval with the first — rejecting — second-pass
entry, so the key never enters the approved list, falsifying the claim's
if-direction. -/
theorem compare_validations_duplicate_key_counterexample :
    (∃ a ∈ [valEx "debug.ts" 5 "console_log" true],
        valKey a = ("debug.ts", (5 : Int), "console_log") ∧
        a.approved = true) ∧
    (∃ b ∈ [valEx "debug.ts" 5 "console_log" false,
            valEx "debug.ts" 5 "console_log" true],
        valKey b = ("debug.ts", (5 : Int), "console_log") ∧
        b.approved = true) ∧
    ¬(∃ ap ∈ (compare_validations
        [valEx "debug.ts" 5 "console_log" true]
        [valEx "debug.ts" 5 "console_log" false,
         valEx "debug.ts" 5 "console_log" true]).approved_corrections,
        apKey ap = ("debug.ts", (5 : Int), "console_log")) := by decide

/-- Witness for C4 at a concrete doubly-approved correction. -/
theorem compare_validations_approved_iff_witness :
    ∃ ap ∈ (compare_validations [valEx "a.ts" 1 "emoji" true]
        [valEx "a.ts" 1 "emoji" true]).approved_corrections,
      apKey ap = ("a.ts", (1 : Int), "emoji") :=
  (compare_validations_approved_iff [valEx "a.ts" 1 "emoji" true]
      [valEx "a.ts" 1 "emoji" true] (by decide)
      ("a.ts", (1 : Int), "emoji")).mpr
    ⟨⟨valEx "a.ts" 1 "emoji" true, by decide, by decide, by decide⟩,
     ⟨valEx "a.ts" 1 "emoji" true, by decide, by decide, by decide⟩⟩

/-! ## Mutation-engine lemmas -/

namespace CodeFixerV3

/-- Setting a line preserves the line count. -/
theorem length_pySet {α : Type} (l : List α) (i : Int) (a : α) :
    (pySet l i a).length = l.length := by
  unfold pySet
  cases pyNorm l.length i <;> simp

/-- A successful Python read normalizes the index. -/
theorem pyGet_some {α : Type} (l : List α) (i : Int) (a : α)
    (h : pyGet l i = some a) :
    ∃ n, pyNorm l.length i = some n ∧ l.get? n = some a := by
  unfold pyGet at h
  cases hn : pyNorm l.length i with
  | none => rw [hn] at h; cases h
  | some n => rw [hn] at h; exact ⟨n, rfl, h⟩

/-- Reading back the line just written returns the written line. -/
theorem pyGet_pySet_self {α : Type} (l : List α) (i : Int) (a b : α)
    (h : pyGet l i = some a) : pyGet (pySet l i b) i = some b := by
  obtain ⟨n, hn, hg⟩ := pyGet_some l i a h
  have hlt : n < l.length := by
    by_contra hge
    push_neg at hge
    rw [List.get?_eq_none.mpr hge] at hg
    cases hg
  have hset : pySet l i b = l.set n b := by
    unfold pySet
    rw [hn]
  unfold pyGet
  rw [hset, List.length_set, hn]
  show (l.set n b).get? n = some b
  rw [List.get?_eq_getElem?]
  exact List.getElem?_set_eq_of_lt b hlt

/-- Induction principle stepping through adjacent pairs of characters. -/
theorem pairInduction (P : List Char → Prop) (h0 : P []) (h1 : ∀ c, P [c])
    (h2 : ∀ c1 c2 t, P (c2 :: t) → P (c1 :: c2 :: t)) : ∀ l, P l := by
  intro l
  induction l with
  | nil => exact h0
  | cons c t ih =>
    cases t with
    | nil => exact h1 c
    | cons c2 r => exact h2 c c2 r ih

/-- Collapsing runs of spaces keeps the head character. -/
theorem collapse_cons (c : Char) (t : List Char) :
    ∃ u, collapseSpaces (c :: t) = c :: u := by
  induction t generalizing c with
  | nil => exact ⟨[], rfl⟩
  | cons c2 r ih =>
    by_cases h : c = ' ' ∧ c2 = ' '
    · obtain ⟨u, hu⟩ := ih c2
      refine ⟨u, ?_⟩
      rw [show collapseSpaces (c :: c2 :: r) = collapseSpaces (c2 :: r) by
        simp [collapseSpaces, h]]
      rw [hu, h.1, h.2]
    · exact ⟨collapseSpaces (c2 :: r), by simp [collapseSpaces, h]⟩

/-- Space collapsing is idempotent. -/
theorem collapse_idem : ∀ l, collapseSpaces (collapseSpaces l) = collapseSpaces l := by
  refine pairInduction _ rfl (fun c => rfl) ?_
  intro c1 c2 t ih
  by_cases h : c1 = ' ' ∧ c2 = ' '
  · rw [show collapseSpaces (c1 :: c2 :: t) = collapseSpaces (c2 :: t) by
      simp [collapseSpaces, h]]
    exact ih
  · rw [show collapseSpaces (c1 :: c2 :: t) = c1 :: collapseSpaces (c2 :: t) by
      simp [collapseSpaces, h]]
    obtain ⟨u, hu⟩ := collapse_cons c2 t
    rw [hu]
    rw [show collapseSpaces (c1 :: c2 :: u) = c1 :: collapseSpaces (c2 :: u) by
      simp [collapseSpaces, h]]
    have h3 : collapseSpaces (c2 :: u) = c2 :: u := by
      conv_lhs => rw [← hu]
      rw [ih, hu]
    rw [h3]

/-- Space collapsing only drops characters. -/
theorem mem_collapse :
    ∀ l, ∀ c : Char, c ∈ collapseSpaces l → c ∈ l := by
  refine pairInduction (fun l => ∀ c, c ∈ collapseSpaces l → c ∈ l)
    (by intro c hc; exact hc) (by intro c d hd; exact hd) ?_
  intro c1 c2 t ih c hc
  by_cases h : c1 = ' ' ∧ c2 = ' '
  · rw [show collapseSpaces (c1 :: c2 :: t) = collapseSpaces (c2 :: t) by
      simp [collapseSpaces, h]] at hc
    exact List.mem_cons_of_mem _ (ih c hc)
  · rw [show collapseSpaces (c1 :: c2 :: t) = c1 :: collapseSpaces (c2 :: t) by
      simp [collapseSpaces, h]] at hc
    rcases List.mem_cons.mp hc with rfl | hc
    · exact List.mem_cons_self _ _
    · exact List.mem_cons_of_mem _ (ih c hc)

/-- The emoji-then-spaces line substitution is idempotent. -/
theorem emojiSubstituted_idem (s : String) :
    emojiSubstituted (emojiSubstituted s) = emojiSubstituted s := by
  unfold emojiSubstituted
  congr 1
  show collapseSpaces
      ((collapseSpaces (s.data.filter fun c => !isEmojiChar c)).filter
        (fun c => !isEmojiChar c)) =
    collapseSpaces (s.data.filter fun c => !isEmojiChar c)
  have hfil : (collapseSpaces (s.data.filter fun c => !isEmojiChar c)).filter
      (fun c => !isEmojiChar c) =
      collapseSpaces (s.data.filter fun c => !isEmojiChar c) := by
    rw [List.filter_eq_self]
    intro a ha
    exact (List.mem_filter.mp (mem_collapse _ a ha)).2
  rw [hfil, collapse_idem]

end CodeFixerV3

/-! ## C3: second application of the mutation engine -/

namespace CodeFixerV3

/-- C3 counterexample: a file with two consecutive console.log lines.  The
engine applies the same console-log fix (line 1) twice; the deletion shifts
the second console.log into line 1, so the second application succeeds again
and mutates the file further instead of failing with a
precondition-not-present outcome. -/
theorem apply_fix_console_second_mutation :
    (apply_fix verifierOk false fsTwoLogs bkEmpty
      (fixEx "src/App.tsx" "console_log" 1)).ok = true ∧
    (apply_fix verifierOk false
      (apply_fix verifierOk false fsTwoLogs bkEmpty
        (fixEx "src/App.tsx" "console_log" 1)).fs
      (apply_fix verifierOk false fsTwoLogs bkEmpty
        (fixEx "src/App.tsx" "console_log" 1)).bk
      (fixEx "src/App.tsx" "console_log" 1)).ok = true ∧
    (apply_fix verifierOk false
      (apply_fix verifierOk false fsTwoLogs bkEmpty
        (fixEx "src/App.tsx" "console_log" 1)).fs
      (apply_fix verifierOk false fsTwoLogs bkEmpty
        (fixEx "src/App.tsx" "console_log" 1)).bk
      (fixEx "src/App.tsx" "console_log" 1)).fs "src/App.tsx" ≠
    (apply_fix verifierOk false fsTwoLogs bkEmpty
      (fixEx "src/App.tsx" "console_log" 1)).fs "src/App.tsx" :=
  ⟨rfl, rfl, by decide⟩

/-- Emoji half of the second-application property: after a successful emoji
removal, applying the engine again to the same file and line performs no
mutation and reports failure (the precondition no longer holds). -/
theorem emoji_second_application (fs fs1 : FS) (fix fix1 g : Fix)
    (h : apply_emoji_removal fs fix.file_path fix = (fs1, fix1, true))
    (hgf : g.file_path = fix.file_path) (hgl : g.line_number = fix.line_number) :
    (apply_emoji_removal fs1 g.file_path g).1 = fs1 ∧
    (apply_emoji_removal fs1 g.file_path g).2.2 = false := by
  unfold apply_emoji_removal at h
  cases hex : fs fix.file_path with
  | none => rw [hex] at h; simp at h
  | some lines =>
    rw [hex] at h
    dsimp only at h
    split at h
    · simp at h
    · rename_i hlen
      cases hg : pyGet lines (fix.line_number - 1) with
      | none => rw [hg] at h; simp at h
      | some original =>
        rw [hg] at h
        dsimp only at h
        split at h
        · have hfs1 : fs1 = updateFS fs fix.file_path
              (pySet lines (fix.line_number - 1) (emojiSubstituted original)) := by
            have := congrArg Prod.fst h
            exact this.symm
          rw [hfs1, hgf]
          unfold apply_emoji_removal
          rw [show updateFS fs fix.file_path
              (pySet lines (fix.line_number - 1) (emojiSubstituted original))
              fix.file_path =
              some (pySet lines (fix.line_number - 1) (emojiSubstituted original)) from by
            simp [updateFS]]
          dsimp only
          rw [hgl, length_pySet, if_neg hlen]
          rw [pyGet_pySet_self lines (fix.line_number - 1) original
            (emojiSubstituted original) hg]
          dsimp only
          rw [emojiSubstituted_idem]
          rw [if_neg (fun hc => hc rfl)]
          exact ⟨rfl, rfl⟩
        · simp at h

/-- Console half of the second-application property: console-log removal
performs no mutation and reports failure whenever the line now at the
target position carries no console call. -/
theorem console_second_application (fs : FS) (g : Fix) (lines : List String)
    (hfs : fs g.file_path = some lines)
    (hno : ∀ l, pyGet lines (g.line_number - 1) = some l → hasConsoleCall l = false) :
    (apply_console_log_removal fs g.file_path g).1 = fs ∧
    (apply_console_log_removal fs g.file_path g).2.2 = false := by
  unfold apply_console_log_removal
  rw [hfs]
  dsimp only
  split
  · exact ⟨rfl, rfl⟩
  · cases hg : pyGet lines (g.line_number - 1) with
    | none => exact ⟨rfl, rfl⟩
    | some l =>
      dsimp only
      rw [hno l hg]
      exact ⟨rfl, rfl⟩

/-- C3 amended: a second application of the mutation engine to the same
already-fixed line never mutates — for emoji removal unconditionally (the
substitution is idempotent), and for console-log removal provided the line
now occupying the target position carries no console call (the
counterexample shows the deletion can shift another console call into
place, in which case the engine mutates again). -/
theorem second_application_precondition :
    (∀ (fs fs1 : FS) (fix fix1 g : Fix),
       apply_emoji_removal fs fix.file_path fix = (fs1, fix1, true) →
       g.file_path = fix.file_path → g.line_number = fix.line_number →
       (apply_emoji_removal fs1 g.file_path g).1 = fs1 ∧
       (apply_emoji_removal fs1 g.file_path g).2.2 = false) ∧
    (∀ (fs : FS) (g : Fix) (lines : List String),
       fs g.file_path = some lines →
       (∀ l, pyGet lines (g.line_number - 1) = some l →
          hasConsoleCall l = false) →
       (apply_console_log_removal fs g.file_path g).1 = fs ∧
       (apply_console_log_removal fs g.file_path g).2.2 = false) :=
  ⟨emoji_second_application, console_second_application⟩

/-- Witness for the C3 amended theorem: an emoji fix applied twice to the
same line of a one-line file fails the second time without mutating, and a
console-log fix on a line without console calls does not mutate. -/
theorem second_application_witness :
    ((apply_emoji_removal
        ((apply_emoji_removal fsEmoji "src/App.tsx"
          (fixEx "src/App.tsx" "emoji_detected" 1)).1) "src/App.tsx"
        (fixEx "src/App.tsx" "emoji_detected" 1)).1 =
      (apply_emoji_removal fsEmoji "src/App.tsx"
        (fixEx "src/App.tsx" "emoji_detected" 1)).1 ∧
     (apply_emoji_removal
        ((apply_emoji_removal fsEmoji "src/App.tsx"
          (fixEx "src/App.tsx" "emoji_detected" 1)).1) "src/App.tsx"
        (fixEx "src/App.tsx" "emoji_detected" 1)).2.2 = false) ∧
    ((apply_console_log_removal fsPlain "src/App.tsx"
        (fixEx "src/App.tsx" "console_log" 1)).1 = fsPlain ∧
     (apply_console_log_removal fsPlain "src/App.tsx"
        (fixEx "src/App.tsx" "console_log" 1)).2.2 = false) :=
  ⟨second_application_precondition.1 fsEmoji
      (apply_emoji_removal fsEmoji "src/App.tsx"
        (fixEx "src/App.tsx" "emoji_detected" 1)).1
      (fixEx "src/App.tsx" "emoji_detected" 1)
      (apply_emoji_removal fsEmoji "src/App.tsx"
        (fixEx "src/App.tsx" "emoji_detected" 1)).2.1
      (fixEx "src/App.tsx" "emoji_detected" 1) rfl rfl rfl,
   second_application_precondition.2 fsPlain (fixEx "src/App.tsx" "console_log" 1)
      ["const x = 1;"] rfl
      (by
        intro l hl
        rw [show pyGet ["const x = 1;"]
            ((fixEx "src/App.tsx" "console_log" 1).line_number - 1) =
            some "const x = 1;" from rfl] at hl
        injection hl with h2
        subst h2
        decide)⟩

end CodeFixerV3

/-! ## C1: rollback on syntax-verification failure -/

namespace CodeFixerV3

/-- Emoji removal writes only to the target path. -/
theorem apply_emoji_removal_fs_other (fs : FS) (path : String) (fix : Fix)
    (p : String) (hp : p ≠ path) :
    (apply_emoji_removal fs path fix).1 p = fs p := by
  unfold apply_emoji_removal
  cases h : fs path with
  | none => rfl
  | some lines =>
    dsimp only
    split
    · rfl
    · cases hg : pyGet lines (fix.line_number - 1) with
      | none => rfl
      | some original =>
        dsimp only
        split
        · simp [updateFS, hp]
        · rfl

/-- Console-log removal writes only to the target path. -/
theorem apply_console_log_removal_fs_other (fs : FS) (path : String) (fix : Fix)
    (p : String) (hp : p ≠ path) :
    (apply_console_log_removal fs path fix).1 p = fs p := by
  unfold apply_console_log_removal
  cases h : fs path with
  | none => rfl
  | some lines =>
    dsimp only
    split
    · rfl
    · cases hg : pyGet lines (fix.line_number - 1) with
      | none => rfl
      | some original =>
        dsimp only
        split
        · simp [updateFS, hp]
        · rfl

/-- Unused-import removal writes only to the target path. -/
theorem apply_unused_import_removal_fs_other (fs : FS) (path : String) (fix : Fix)
    (p : String) (hp : p ≠ path) :
    (apply_unused_import_removal fs path fix).1 p = fs p := by
  unfold apply_unused_import_removal
  cases h : fs path with
  | none => rfl
  | some lines =>
    dsimp only
    split
    · rfl
    · cases hg : pyGet lines (fix.line_number - 1) with
      | none => rfl
      | some original =>
        dsimp only
        cases hs : searchImportName fix.description.data with
        | none => rfl
        | some name =>
          dsimp only
          split
          · split
            · simp [updateFS, hp]
            · simp [updateFS, hp]
          · split
            · simp [updateFS, hp]
            · rfl

/-- The transform dispatch writes only to the target path. -/
theorem runTransform_fs_other (fs : FS) (path : String) (fix : Fix)
    (p : String) (hp : p ≠ path) :
    (runTransform fs path fix).1 p = fs p := by
  unfold runTransform
  by_cases h1 : fix.fix_type = "emoji_detected"
  · rw [if_pos h1]
    exact apply_emoji_removal_fs_other fs path fix p hp
  · rw [if_neg h1]
    by_cases h2 : fix.fix_type = "console_log"
    · rw [if_pos h2]
      exact apply_console_log_removal_fs_other fs path fix p hp
    · rw [if_neg h2]
      by_cases h3 : fix.fix_type = "unused_import"
      · rw [if_pos h3]
        exact apply_unused_import_removal_fs_other fs path fix p hp
      · rw [if_neg h3]

/-- C1 amended: when the transform of a fix succeeds and the verifier then
rejects the mutated file, `apply_fix` restores every path of the file system
to its pre-mutation content (the content at the instant this fix started,
i.e. the most recent backup), records `success = false`, and stores the
verifier's message inside `Fix.error` after the rollback marker. -/
theorem apply_fix_syntax_failure_restores (verifier : Verifier) (fs bk : FS)
    (fix : Fix) (c : List String) (msg : String)
    (hex : fs fix.file_path = some c)
    (htr : (runTransform fs fix.file_path fix).2.2 = true)
    (hv : verifier fix.file_path
        ((runTransform fs fix.file_path fix).1 fix.file_path) = (false, msg)) :
    (∀ p, (apply_fix verifier false fs bk fix).fs p = fs p) ∧
    (apply_fix verifier false fs bk fix).fix.success = false ∧
    (apply_fix verifier false fs bk fix).fix.error =
      "Erreur de syntaxe après modification (ROLLBACK ✅): " ++ msg ∧
    (apply_fix verifier false fs bk fix).ok = false := by
  have hbk : backup_file fs bk fix.file_path = updateFS bk fix.file_path c := by
    unfold backup_file
    rw [hex]
  have hbk1 : backup_file fs bk fix.file_path fix.file_path = some c := by
    rw [hbk]
    simp [updateFS]
  have hroll : rollback_file (runTransform fs fix.file_path fix).1
      (backup_file fs bk fix.file_path) fix.file_path =
      (updateFS (runTransform fs fix.file_path fix).1 fix.file_path c, true) := by
    unfold rollback_file
    rw [hbk1]
  have hres : apply_fix verifier false fs bk fix =
      ⟨updateFS (runTransform fs fix.file_path fix).1 fix.file_path c,
       backup_file fs bk fix.file_path,
       { (runTransform fs fix.file_path fix).2.1 with
         error := "Erreur de syntaxe après modification (ROLLBACK " ++ "✅" ++
                  "): " ++ msg,
         success := false }, false⟩ := by
    unfold apply_fix
    rw [hex]
    dsimp only
    rw [if_neg Bool.false_ne_true, htr, if_pos rfl, hv]
    dsimp only
    rw [if_neg Bool.false_ne_true, hroll]
    dsimp only
    rw [if_pos rfl]
  refine ⟨?_, ?_, ?_, ?_⟩
  · intro p
    rw [hres]
    by_cases hp : p = fix.file_path
    · subst hp
      show updateFS (runTransform fs fix.file_path fix).1 fix.file_path c
          fix.file_path = fs fix.file_path
      rw [hex]
      simp [updateFS]
    · show updateFS (runTransform fs fix.file_path fix).1 fix.file_path c p = fs p
      unfold updateFS
      rw [if_neg hp]
      exact runTransform_fs_other fs fix.file_path fix p hp
  · rw [hres]
  · rw [hres]
    show "Erreur de syntaxe après modification (ROLLBACK " ++ "✅" ++
        "): " ++ msg = "Erreur de syntaxe après modification (ROLLBACK ✅): " ++ msg
    exact congrArg (fun t => t ++ msg) rfl
  · rw [hres]

/-- Witness for the C1 amended theorem: a console-log fix whose mutation is
rejected by an always-failing verifier leaves the file exactly as before. -/
theorem apply_fix_syntax_failure_restores_witness :
    (∀ p, (apply_fix verifierBoom false fsOneLog bkEmpty
        (fixEx "src/App.tsx" "console_log" 1)).fs p = fsOneLog p) ∧
    (apply_fix verifierBoom false fsOneLog bkEmpty
        (fixEx "src/App.tsx" "console_log" 1)).fix.success = false ∧
    (apply_fix verifierBoom false fsOneLog bkEmpty
        (fixEx "src/App.tsx" "console_log" 1)).fix.error =
      "Erreur de syntaxe après modification (ROLLBACK ✅): " ++ "boom" ∧
    (apply_fix verifierBoom false fsOneLog bkEmpty
        (fixEx "src/App.tsx" "console_log" 1)).ok = false :=
  apply_fix_syntax_failure_restores verifierBoom fsOneLog bkEmpty
    (fixEx "src/App.tsx" "console_log" 1) ["console.log(1);"] "boom"
    rfl rfl rfl

/-- C1 counterexample: two console-log fixes on the same file in one
session.  The first commits, the second fails verification and rolls back,
and the restored content is the post-first-fix content, not the
byte-identical pre-session content the claim requires. -/
theorem apply_all_fixes_rollback_not_pre_session :
    (apply_all_fixes verifierOneLine false fsTwoLogs bkEmpty
      [fixEx "src/App.tsx" "console_log" 1,
       fixEx "src/App.tsx" "console_log" 1]).fixes_failed.map Fix.error =
      ["Erreur de syntaxe après modification (ROLLBACK ✅): bad syntax"] ∧
    (apply_all_fixes verifierOneLine false fsTwoLogs bkEmpty
      [fixEx "src/App.tsx" "console_log" 1,
       fixEx "src/App.tsx" "console_log" 1]).fs "src/App.tsx" ≠
      fsTwoLogs "src/App.tsx" :=
  ⟨rfl, by decide⟩

end CodeFixerV3

/-! ## C8: failure conversion and isolation in the mutation engine -/

namespace CodeFixerV3

/-- C8 counterexample: a console-log fix targeting a line without any
console call fails (precondition absent), is recorded with
`success = false`, but `Fix.error` is left completely empty — the failure
is not converted into a populated, non-empty error message. -/
theorem transform_failure_empty_error :
    (apply_all_fixes verifierOk false fsPlain bkEmpty
      [fixEx "src/App.tsx" "console_log" 1]).fixes_failed.map Fix.error = [""] ∧
    (apply_all_fixes verifierOk false fsPlain bkEmpty
      [fixEx "src/App.tsx" "console_log" 1]).fixes_failed.map Fix.success =
      [false] :=
  ⟨rfl, rfl⟩

/-- A non-empty left part keeps a concatenation non-empty. -/
theorem append_left_ne_empty (s t : String) (hs : s.length ≠ 0) :
    s ++ t ≠ "" := by
  intro h
  have hlen := congrArg String.length h
  rw [String.length_append] at hlen
  have h0 : String.length "" = 0 := rfl
  rw [h0] at hlen
  omega

/-- A filter and its complement split the length of a list. -/
theorem length_filter_partition {α : Type _} (p : α → Bool) (l : List α) :
    (l.filter p).length + (l.filter (fun x => !p x)).length = l.length := by
  induction l with
  | nil => rfl
  | cons x xs ih =>
    by_cases h : p x <;> simp [List.filter_cons, h] <;> omega

/-- Counting a list bucket-by-bucket over a duplicate-free covering key list
recovers its length. -/
theorem sum_counts {α : Type _} (key : α → String) :
    ∀ (K : List String) (l : List α), K.Nodup → (∀ x ∈ l, key x ∈ K) →
      (K.map (fun f => (l.filter (fun x => key x == f)).length)).sum = l.length
  | [], l, _, hcov => by
    cases l with
    | nil => simp
    | cons x xs => exact absurd (hcov x (List.mem_cons_self x xs)) (List.not_mem_nil _)
  | f :: K, l, hnd, hcov => by
    rw [List.map_cons, List.sum_cons]
    have hmapeq : ∀ g ∈ K, (l.filter (fun x => key x == g)) =
        ((l.filter (fun x => key x != f)).filter (fun x => key x == g)) := by
      intro g hg
      have hgf : g ≠ f := by
        intro hc
        subst hc
        exact (List.nodup_cons.mp hnd).1 hg
      rw [List.filter_filter]
      apply List.filter_congr
      intro a _
      by_cases ha : key a = g
      · simp [ha, hgf]
      · simp [ha]
    have hsum2 : (K.map (fun g => (l.filter (fun x => key x == g)).length)).sum =
        (K.map (fun g =>
          ((l.filter (fun x => key x != f)).filter (fun x => key x == g)).length)).sum := by
      apply congrArg List.sum
      apply List.map_congr_left
      intro g hg
      rw [hmapeq g hg]
    rw [hsum2, sum_counts key K (l.filter fun x => key x != f)
      (List.nodup_cons.mp hnd).2 ?_]
    · have hpart := length_filter_partition (fun x => key x == f) l
      have hbne : (l.filter fun x => key x != f) =
          (l.filter fun x => !(key x == f)) := rfl
      rw [hbne]
      omega
    · intro x hx
      rw [List.mem_filter] at hx
      rcases List.mem_cons.mp (hcov x hx.1) with h | h
      · exfalso
        have := hx.2
        rw [h] at this
        simp at this
      · exact h

/-- Each processed fix lands in exactly one of the two outcome lists. -/
theorem applyAllStep_count (verifier : Verifier) (dry_run : Bool)
    (st : FixerState) (fix : Fix) :
    (applyAllStep verifier dry_run st fix).fixes_applied.length +
      (applyAllStep verifier dry_run st fix).fixes_failed.length =
      st.fixes_applied.length + st.fixes_failed.length + 1 := by
  unfold applyAllStep
  by_cases h : (apply_fix verifier dry_run st.fs st.bk fix).ok
  · simp [h]
    omega
  · simp [h]
    omega

/-- Outcome counting through the per-file fix loop. -/
theorem fold_count (verifier : Verifier) (dry_run : Bool) :
    ∀ (fxs : List Fix) (st : FixerState),
      (fxs.foldl (applyAllStep verifier dry_run) st).fixes_applied.length +
        (fxs.foldl (applyAllStep verifier dry_run) st).fixes_failed.length =
        st.fixes_applied.length + st.fixes_failed.length + fxs.length
  | [], st => by simp
  | fx :: fxs, st => by
    rw [List.foldl_cons, fold_count verifier dry_run fxs _, applyAllStep_count]
    simp
    omega

/-- Outcome counting through the file loop. -/
theorem groups_fold_count (verifier : Verifier) (dry_run : Bool) :
    ∀ (gs : List (String × List Fix)) (st : FixerState),
      ((gs.foldl (fun st fg => fg.2.foldl (applyAllStep verifier dry_run) st)
          st).fixes_applied.length +
       (gs.foldl (fun st fg => fg.2.foldl (applyAllStep verifier dry_run) st)
          st).fixes_failed.length) =
        st.fixes_applied.length + st.fixes_failed.length +
          (gs.map (fun fg => fg.2.length)).sum
  | [], st => by simp
  | fg :: gs, st => by
    rw [List.foldl_cons, groups_fold_count verifier dry_run gs _, fold_count]
    simp
    omega

/-- `apply_all_fixes` processes every loaded fix exactly once. -/
theorem apply_all_fixes_count (verifier : Verifier) (dry_run : Bool)
    (fs bk : FS) (fixes : List Fix) :
    (apply_all_fixes verifier dry_run fs bk fixes).fixes_applied.length +
      (apply_all_fixes verifier dry_run fs bk fixes).fixes_failed.length =
      fixes.length := by
  unfold apply_all_fixes
  rw [groups_fold_count]
  have hmap : ((groupFixesByFile fixes).map (fun fg => fg.2.length)) =
      ((fixFileKeys fixes).map
        (fun f => (fixes.filter (fun g => g.file_path == f)).length)) := by
    unfold groupFixesByFile
    rw [List.map_map]
    rfl
  rw [hmap]
  have hsum := sum_counts Fix.file_path (fixFileKeys fixes) fixes
    (nodup_firstDedup _) ?_
  · rw [hsum]
    simp
  · intro x hx
    unfold fixFileKeys
    rw [mem_firstDedup]
    exact List.mem_map_of_mem Fix.file_path hx

/-- Emoji removal never changes the fix type. -/
theorem apply_emoji_removal_fix_type (fs : FS) (path : String) (fix : Fix) :
    (apply_emoji_removal fs path fix).2.1.fix_type = fix.fix_type := by
  unfold apply_emoji_removal
  cases h : fs path with
  | none => rfl
  | some lines =>
    dsimp only
    split
    · rfl
    · cases hg : pyGet lines (fix.line_number - 1) with
      | none => rfl
      | some original =>
        dsimp only
        split
        · rfl
        · rfl

/-- Console-log removal never changes the fix type. -/
theorem apply_console_log_removal_fix_type (fs : FS) (path : String) (fix : Fix) :
    (apply_console_log_removal fs path fix).2.1.fix_type = fix.fix_type := by
  unfold apply_console_log_removal
  cases h : fs path with
  | none => rfl
  | some lines =>
    dsimp only
    split
    · rfl
    · cases hg : pyGet lines (fix.line_number - 1) with
      | none => rfl
      | some original =>
        dsimp only
        split
        · rfl
        · rfl

/-- Unused-import removal never changes the fix type. -/
theorem apply_unused_import_removal_fix_type (fs : FS) (path : String) (fix : Fix) :
    (apply_unused_import_removal fs path fix).2.1.fix_type = fix.fix_type := by
  unfold apply_unused_import_removal
  cases h : fs path with
  | none => rfl
  | some lines =>
    dsimp only
    split
    · rfl
    · cases hg : pyGet lines (fix.line_number - 1) with
      | none => rfl
      | some original =>
        dsimp only
        cases hs : searchImportName fix.description.data with
        | none => rfl
        | some name =>
          dsimp only
          split
          · split
            · rfl
            · rfl
          · split
            · rfl
            · rfl

/-- The transform dispatch never changes the fix type. -/
theorem runTransform_fix_type (fs : FS) (path : String) (fix : Fix) :
    (runTransform fs path fix).2.1.fix_type = fix.fix_type := by
  unfold runTransform
  by_cases h1 : fix.fix_type = "emoji_detected"
  · rw [if_pos h1]
    exact apply_emoji_removal_fix_type fs path fix
  · rw [if_neg h1]
    by_cases h2 : fix.fix_type = "console_log"
    · rw [if_pos h2]
      exact apply_console_log_removal_fix_type fs path fix
    · rw [if_neg h2]
      by_cases h3 : fix.fix_type = "unused_import"
      · rw [if_pos h3]
        exact apply_unused_import_removal_fix_type fs path fix
      · rw [if_neg h3]

/-- `apply_fix` never changes the fix type of the record it returns. -/
theorem apply_fix_fix_type (verifier : Verifier) (dry_run : Bool)
    (fs bk : FS) (fix : Fix) :
    (apply_fix verifier dry_run fs bk fix).fix.fix_type = fix.fix_type := by
  unfold apply_fix
  cases h : fs fix.file_path with
  | none => rfl
  | some c =>
    dsimp only
    split
    · rfl
    · split
      · split
        · exact runTransform_fix_type fs fix.file_path fix
        · exact runTransform_fix_type fs fix.file_path fix
      · exact runTransform_fix_type fs fix.file_path fix

/-- A fix with an unsupported type always fails with a populated error. -/
theorem apply_fix_unsupported (verifier : Verifier) (fs bk : FS) (fix : Fix)
    (h1 : fix.fix_type ≠ "emoji_detected") (h2 : fix.fix_type ≠ "console_log")
    (h3 : fix.fix_type ≠ "unused_import") :
    (apply_fix verifier false fs bk fix).ok = false ∧
    (apply_fix verifier false fs bk fix).fix.error ≠ "" := by
  unfold apply_fix
  cases hex : fs fix.file_path with
  | none =>
    refine ⟨rfl, ?_⟩
    show "Fichier introuvable : " ++ fix.file_path ≠ ""
    exact append_left_ne_empty _ _ (by decide)
  | some c =>
    dsimp only
    rw [if_neg Bool.false_ne_true]
    unfold runTransform
    rw [if_neg h1, if_neg h2, if_neg h3]
    dsimp only
    rw [if_neg Bool.false_ne_true]
    refine ⟨rfl, ?_⟩
    show "Type de correction non supporté : " ++ fix.fix_type ≠ ""
    exact append_left_ne_empty _ _ (by decide)

end CodeFixerV3


namespace CodeFixerV3

/-- Invariant preservation through a left fold, with membership of the
consumed element available to the step. -/
theorem foldl_preserve_mem {α σ : Type _} {P : σ → Prop} {f : σ → α → σ} :
    ∀ (l : List α), (∀ s a, a ∈ l → P s → P (f s a)) →
      ∀ (s : σ), P s → P (l.foldl f s)
  | [], _, _, h => h
  | a :: l, hstep, s, h =>
    foldl_preserve_mem l
      (fun s b hb => hstep s b (List.mem_cons_of_mem a hb)) (f s a)
      (hstep s a (List.mem_cons_self a l) h)

/-- Every fix inside a `by_file` bucket comes from the input fix list. -/
theorem mem_fixes_of_mem_group (fixes : List Fix) (fg : String × List Fix)
    (hfg : fg ∈ groupFixesByFile fixes) : ∀ fx ∈ fg.2, fx ∈ fixes := by
  intro fx hfx
  unfold groupFixesByFile at hfg
  rcases List.mem_map.mp hfg with ⟨f, _, rfl⟩
  exact List.mem_of_mem_filter hfx

/-- A non-empty left part keeps a concatenation's length non-zero. -/
theorem append_left_length_ne (s t : String) (hs : s.length ≠ 0) :
    (s ++ t).length ≠ 0 := by
  rw [String.length_append]
  omega

/-- A failing emoji removal either populates `Fix.error` (line out of
bounds, index error) or — when the line simply carries no emoji — returns
the `Fix` record untouched. -/
theorem apply_emoji_removal_fail_error (fs : FS) (path : String) (fix : Fix)
    (h : (apply_emoji_removal fs path fix).2.2 = false) :
    (apply_emoji_removal fs path fix).2.1.error ≠ "" ∨
    (apply_emoji_removal fs path fix).2.1 = fix := by
  unfold apply_emoji_removal at h ⊢
  cases hfs : fs path with
  | none =>
    left
    show fileNotFoundError path ≠ ""
    unfold fileNotFoundError
    exact append_left_ne_empty _ _ (append_left_length_ne _ _ (by decide))
  | some lines =>
    rw [hfs] at h
    dsimp only at h ⊢
    by_cases hlen : fix.line_number > (lines.length : Int)
    · rw [if_pos hlen]
      left
      show "Ligne " ++ toString fix.line_number ++ " hors limites" ≠ ""
      exact append_left_ne_empty _ _ (append_left_length_ne _ _ (by decide))
    · rw [if_neg hlen] at h ⊢
      cases hg : pyGet lines (fix.line_number - 1) with
      | none =>
        left
        show "list index out of range" ≠ ""
        decide
      | some original =>
        rw [hg] at h
        dsimp only at h ⊢
        by_cases hne : original ≠ emojiSubstituted original
        · rw [if_pos hne] at h
          simp at h
        · rw [if_neg hne]
          right
          rfl

/-- A failing console-log removal either populates `Fix.error` or — when
the line carries no console call — returns the `Fix` record untouched. -/
theorem apply_console_log_removal_fail_error (fs : FS) (path : String)
    (fix : Fix) (h : (apply_console_log_removal fs path fix).2.2 = false) :
    (apply_console_log_removal fs path fix).2.1.error ≠ "" ∨
    (apply_console_log_removal fs path fix).2.1 = fix := by
  unfold apply_console_log_removal at h ⊢
  cases hfs : fs path with
  | none =>
    left
    show fileNotFoundError path ≠ ""
    unfold fileNotFoundError
    exact append_left_ne_empty _ _ (append_left_length_ne _ _ (by decide))
  | some lines =>
    rw [hfs] at h
    dsimp only at h ⊢
    by_cases hlen : fix.line_number > (lines.length : Int)
    · rw [if_pos hlen]
      left
      show "Ligne " ++ toString fix.line_number ++ " hors limites" ≠ ""
      exact append_left_ne_empty _ _ (append_left_length_ne _ _ (by decide))
    · rw [if_neg hlen] at h ⊢
      cases hg : pyGet lines (fix.line_number - 1) with
      | none =>
        left
        show "list index out of range" ≠ ""
        decide
      | some original =>
        rw [hg] at h
        dsimp only at h ⊢
        by_cases hcall : hasConsoleCall original
        · rw [if_pos hcall] at h
          simp at h
        · rw [if_neg hcall]
          right
          rfl

/-- A failing unused-import removal either populates `Fix.error` (line out
of bounds, index error, name extraction failure) or — when the line matches
no import shape — returns the `Fix` record untouched. -/
theorem apply_unused_import_removal_fail_error (fs : FS) (path : String)
    (fix : Fix) (h : (apply_unused_import_removal fs path fix).2.2 = false) :
    (apply_unused_import_removal fs path fix).2.1.error ≠ "" ∨
    (apply_unused_import_removal fs path fix).2.1 = fix := by
  unfold apply_unused_import_removal at h ⊢
  cases hfs : fs path with
  | none =>
    left
    show fileNotFoundError path ≠ ""
    unfold fileNotFoundError
    exact append_left_ne_empty _ _ (append_left_length_ne _ _ (by decide))
  | some lines =>
    rw [hfs] at h
    dsimp only at h ⊢
    by_cases hlen : fix.line_number > (lines.length : Int)
    · rw [if_pos hlen]
      left
      show "Ligne " ++ toString fix.line_number ++ " hors limites" ≠ ""
      exact append_left_ne_empty _ _ (append_left_length_ne _ _ (by decide))
    · rw [if_neg hlen] at h ⊢
      cases hg : pyGet lines (fix.line_number - 1) with
      | none =>
        left
        show "list index out of range" ≠ ""
        decide
      | some original =>
        rw [hg] at h
        dsimp only at h ⊢
        cases hs : searchImportName fix.description.data with
        | none =>
          left
          show "Impossible d\x27extraire le nom de l\x27import" ≠ ""
          decide
        | some name =>
          rw [hs] at h
          dsimp only at h ⊢
          by_cases hbr : strContains original "\x7b" && strContains original "\x7d"
          · rw [if_pos hbr] at h
            by_cases hemp : searchImportEmpty
                (String.mk (subPairAll '\x7b' '\x7d' []
                  ((subPairAll ',' '\x7d' ['\x7d']
                    ((subPairAll '\x7b' ',' ['\x7b']
                      ((subNameAll name original.data.length original.data).length)
                      (subNameAll name original.data.length original.data)).length)
                    (subPairAll '\x7b' ',' ['\x7b']
                      ((subNameAll name original.data.length original.data).length)
                      (subNameAll name original.data.length original.data))).length)
                  (subPairAll ',' '\x7d' ['\x7d']
                    ((subPairAll '\x7b' ',' ['\x7b']
                      ((subNameAll name original.data.length original.data).length)
                      (subNameAll name original.data.length original.data)).length)
                    (subPairAll '\x7b' ',' ['\x7b']
                      ((subNameAll name original.data.length original.data).length)
                      (subNameAll name original.data.length original.data))))).data
            · rw [if_pos hemp] at h
              simp at h
            · rw [if_neg hemp] at h
              simp at h
          · rw [if_neg hbr] at h ⊢
            by_cases him : strContains original ("import " ++ String.mk name) ||
                strContains original ("import\t" ++ String.mk name)
            · rw [if_pos him] at h
              simp at h
            · rw [if_neg him]
              right
              rfl

/-- A failing transform dispatch either populates `Fix.error` or returns
the `Fix` record untouched (the precondition-absent case). -/
theorem runTransform_fail_error (fs : FS) (path : String) (fix : Fix)
    (h : (runTransform fs path fix).2.2 = false) :
    (runTransform fs path fix).2.1.error ≠ "" ∨
    (runTransform fs path fix).2.1 = fix := by
  unfold runTransform at h ⊢
  by_cases h1 : fix.fix_type = "emoji_detected"
  · rw [if_pos h1] at h ⊢
    exact apply_emoji_removal_fail_error fs path fix h
  · rw [if_neg h1] at h ⊢
    by_cases h2 : fix.fix_type = "console_log"
    · rw [if_pos h2] at h ⊢
      exact apply_console_log_removal_fail_error fs path fix h
    · rw [if_neg h2] at h ⊢
      by_cases h3 : fix.fix_type = "unused_import"
      · rw [if_pos h3] at h ⊢
        exact apply_unused_import_removal_fail_error fs path fix h
      · rw [if_neg h3]
        left
        show "Type de correction non supporté : " ++ fix.fix_type ≠ ""
        exact append_left_ne_empty _ _ (by decide)

/-- Every failing `apply_fix` call (outside dry-run) either populates a
non-empty `Fix.error` — missing file, out-of-bounds line, index error,
name-extraction failure, unsupported type, syntax-verification failure —
or returns the `Fix` record completely untouched, which is exactly the
precondition-absent transform outcome. -/
theorem apply_fix_fail_error (verifier : Verifier) (fs bk : FS) (fix : Fix)
    (h : (apply_fix verifier false fs bk fix).ok = false) :
    (apply_fix verifier false fs bk fix).fix.error ≠ "" ∨
    (apply_fix verifier false fs bk fix).fix = fix := by
  unfold apply_fix at h ⊢
  cases hfs : fs fix.file_path with
  | none =>
    left
    show "Fichier introuvable : " ++ fix.file_path ≠ ""
    exact append_left_ne_empty _ _ (by decide)
  | some c =>
    rw [hfs] at h
    dsimp only at h ⊢
    rw [if_neg Bool.false_ne_true] at h ⊢
    by_cases htr : (runTransform fs fix.file_path fix).2.2
    · rw [if_pos htr] at h ⊢
      by_cases hv : (verifier fix.file_path
          ((runTransform fs fix.file_path fix).1 fix.file_path)).1
      · rw [if_pos hv] at h
        simp at h
      · rw [if_neg hv]
        left
        exact append_left_ne_empty _ _ (append_left_length_ne _ _
          (append_left_length_ne _ _ (by decide)))
    · rw [if_neg htr]
      have htr2 : (runTransform fs fix.file_path fix).2.2 = false := by
        simpa using htr
      exact runTransform_fail_error fs fix.file_path fix htr2

/-- C8 amended: no failure aborts the run — every fix reaches a terminal
outcome with `applied = true` (the applied and failed counts sum to the
input count), successes carry `success = true` and failures
`success = false`; every failing `apply_fix` call either populates a
non-empty `Fix.error` (missing file, out-of-bounds line, unsupported type,
failed import-name extraction, syntax-verification failure) or returns
the `Fix` record completely untouched — which happens exactly when the
transform finds its expected pattern absent, the one path the
counterexample shows recording a failure with an empty error; accordingly
every recorded failure has a non-empty error or is an input fix unchanged
apart from the `applied` and `success` flags, and unsupported-type
failures always populate the error. -/
theorem apply_all_fixes_processes_every_fix (verifier : Verifier)
    (fs bk : FS) (fixes : List Fix) :
    (apply_all_fixes verifier false fs bk fixes).fixes_applied.length +
      (apply_all_fixes verifier false fs bk fixes).fixes_failed.length =
      fixes.length ∧
    (∀ f ∈ (apply_all_fixes verifier false fs bk fixes).fixes_applied,
        f.applied = true ∧ f.success = true) ∧
    (∀ f ∈ (apply_all_fixes verifier false fs bk fixes).fixes_failed,
        f.applied = true ∧ f.success = false) ∧
    (∀ (fs2 bk2 : FS) (fix : Fix),
        (apply_fix verifier false fs2 bk2 fix).ok = false →
        (apply_fix verifier false fs2 bk2 fix).fix.error ≠ "" ∨
        (apply_fix verifier false fs2 bk2 fix).fix = fix) ∧
    (∀ f ∈ (apply_all_fixes verifier false fs bk fixes).fixes_failed,
        f.error ≠ "" ∨
        ∃ fix0 ∈ fixes, f = { fix0 with applied := true, success := false }) ∧
    (∀ f ∈ (apply_all_fixes verifier false fs bk fixes).fixes_failed,
        f.fix_type ≠ "emoji_detected" → f.fix_type ≠ "console_log" →
        f.fix_type ≠ "unused_import" → f.error ≠ "") := by
  have hstep : ∀ (st : FixerState) (fx : Fix), fx ∈ fixes →
      ((∀ f ∈ st.fixes_applied, f.applied = true ∧ f.success = true) ∧
       (∀ f ∈ st.fixes_failed, f.applied = true ∧ f.success = false) ∧
       (∀ f ∈ st.fixes_failed, f.error ≠ "" ∨
          ∃ fix0 ∈ fixes, f = { fix0 with applied := true, success := false }) ∧
       (∀ f ∈ st.fixes_failed,
          f.fix_type ≠ "emoji_detected" → f.fix_type ≠ "console_log" →
          f.fix_type ≠ "unused_import" → f.error ≠ "")) →
      ((∀ f ∈ (applyAllStep verifier false st fx).fixes_applied,
          f.applied = true ∧ f.success = true) ∧
       (∀ f ∈ (applyAllStep verifier false st fx).fixes_failed,
          f.applied = true ∧ f.success = false) ∧
       (∀ f ∈ (applyAllStep verifier false st fx).fixes_failed,
          f.error ≠ "" ∨
          ∃ fix0 ∈ fixes, f = { fix0 with applied := true, success := false }) ∧
       (∀ f ∈ (applyAllStep verifier false st fx).fixes_failed,
          f.fix_type ≠ "emoji_detected" → f.fix_type ≠ "console_log" →
          f.fix_type ≠ "unused_import" → f.error ≠ "")) := by
    intro st fx hfx hP
    unfold applyAllStep
    by_cases h : (apply_fix verifier false st.fs st.bk fx).ok
    · rw [if_pos h]
      refine ⟨?_, hP.2.1, hP.2.2.1, hP.2.2.2⟩
      intro f hf
      rcases List.mem_append.mp hf with hf | hf
      · exact hP.1 f hf
      · rw [List.mem_singleton.mp hf]
        exact ⟨rfl, rfl⟩
    · rw [if_neg h]
      have hok : (apply_fix verifier false st.fs st.bk fx).ok = false := by
        simpa using h
      refine ⟨hP.1, ?_, ?_, ?_⟩
      · intro f hf
        rcases List.mem_append.mp hf with hf | hf
        · exact hP.2.1 f hf
        · rw [List.mem_singleton.mp hf]
          exact ⟨rfl, rfl⟩
      · intro f hf
        rcases List.mem_append.mp hf with hf | hf
        · exact hP.2.2.1 f hf
        · rw [List.mem_singleton.mp hf]
          rcases apply_fix_fail_error verifier st.fs st.bk fx hok with he | hfix
          · left
            show (apply_fix verifier false st.fs st.bk fx).fix.error ≠ ""
            exact he
          · right
            exact ⟨fx, hfx, by rw [hfix]⟩
      · intro f hf
        rcases List.mem_append.mp hf with hf | hf
        · exact hP.2.2.2 f hf
        · rw [List.mem_singleton.mp hf]
          intro h1 h2 h3
          have htype := apply_fix_fix_type verifier false st.fs st.bk fx
          show (apply_fix verifier false st.fs st.bk fx).fix.error ≠ ""
          exact (apply_fix_unsupported verifier st.fs st.bk fx
            (htype ▸ h1) (htype ▸ h2) (htype ▸ h3)).2
  have hinv :
      (∀ f ∈ (apply_all_fixes verifier false fs bk fixes).fixes_applied,
          f.applied = true ∧ f.success = true) ∧
      (∀ f ∈ (apply_all_fixes verifier false fs bk fixes).fixes_failed,
          f.applied = true ∧ f.success = false) ∧
      (∀ f ∈ (apply_all_fixes verifier false fs bk fixes).fixes_failed,
          f.error ≠ "" ∨
          ∃ fix0 ∈ fixes, f = { fix0 with applied := true, success := false }) ∧
      (∀ f ∈ (apply_all_fixes verifier false fs bk fixes).fixes_failed,
          f.fix_type ≠ "emoji_detected" → f.fix_type ≠ "console_log" →
          f.fix_type ≠ "unused_import" → f.error ≠ "") := by
    unfold apply_all_fixes
    refine foldl_preserve_mem
      (P := fun st =>
        (∀ f ∈ st.fixes_applied, f.applied = true ∧ f.success = true) ∧
        (∀ f ∈ st.fixes_failed, f.applied = true ∧ f.success = false) ∧
        (∀ f ∈ st.fixes_failed,
            f.error ≠ "" ∨
            ∃ fix0 ∈ fixes, f = { fix0 with applied := true, success := false }) ∧
        (∀ f ∈ st.fixes_failed,
            f.fix_type ≠ "emoji_detected" → f.fix_type ≠ "console_log" →
            f.fix_type ≠ "unused_import" → f.error ≠ ""))
      (groupFixesByFile fixes) ?_
      (⟨fs, bk, [], []⟩ : FixerState)
      ⟨by intro f hf; simp at hf, by intro f hf; simp at hf,
       by intro f hf; simp at hf, by intro f hf; simp at hf⟩
    intro st fg hfg hP
    exact foldl_preserve_mem fg.2
      (fun st2 fx hfx hP2 =>
        hstep st2 fx (mem_fixes_of_mem_group fixes fg hfg fx hfx) hP2) st hP
  exact ⟨apply_all_fixes_count verifier false fs bk fixes, hinv.1, hinv.2.1,
    fun fs2 bk2 fix h => apply_fix_fail_error verifier fs2 bk2 fix h,
    hinv.2.2.1, hinv.2.2.2⟩

/-- Witness for the C8 amended theorem at a concrete one-fix run. -/
theorem apply_all_fixes_processes_every_fix_witness :
    (apply_all_fixes verifierOk false fsPlain bkEmpty
      [fixEx "src/App.tsx" "console_log" 1]).fixes_applied.length +
      (apply_all_fixes verifierOk false fsPlain bkEmpty
        [fixEx "src/App.tsx" "console_log" 1]).fixes_failed.length = 1 ∧
    (∀ f ∈ (apply_all_fixes verifierOk false fsPlain bkEmpty
        [fixEx "src/App.tsx" "console_log" 1]).fixes_applied,
        f.applied = true ∧ f.success = true) ∧
    (∀ f ∈ (apply_all_fixes verifierOk false fsPlain bkEmpty
        [fixEx "src/App.tsx" "console_log" 1]).fixes_failed,
        f.applied = true ∧ f.success = false) ∧
    (∀ (fs2 bk2 : FS) (fix : Fix),
        (apply_fix verifierOk false fs2 bk2 fix).ok = false →
        (apply_fix verifierOk false fs2 bk2 fix).fix.error ≠ "" ∨
        (apply_fix verifierOk false fs2 bk2 fix).fix = fix) ∧
    (∀ f ∈ (apply_all_fixes verifierOk false fsPlain bkEmpty
        [fixEx "src/App.tsx" "console_log" 1]).fixes_failed,
        f.error ≠ "" ∨
        ∃ fix0 ∈ [fixEx "src/App.tsx" "console_log" 1],
          f = { fix0 with applied := true, success := false }) ∧
    (∀ f ∈ (apply_all_fixes verifierOk false fsPlain bkEmpty
        [fixEx "src/App.tsx" "console_log" 1]).fixes_failed,
        f.fix_type ≠ "emoji_detected" → f.fix_type ≠ "console_log" →
        f.fix_type ≠ "unused_import" → f.error ≠ "") :=
  apply_all_fixes_processes_every_fix verifierOk fsPlain bkEmpty
    [fixEx "src/App.tsx" "console_log" 1]

end CodeFixerV3
